import Mathlib

/-!
Shallow embedding of the Schedule keyword-processing engine of the
opm-cmake repository (deck-keyword handlers, handler dispatch, well lists,
WPIMULT routing, name trimming), together with theorems settling the
specification claims about it.

Conventions used throughout:

* C++ `double` deck values are embedded as `Rat` (the claims only inspect
  exact comparisons such as "target is exactly zero", never rounding).
* C++ exceptions are embedded as `Except Exn`; `std::invalid_argument` and
  `std::out_of_range` are subclasses of `std::logic_error` and are embedded
  with the `Exn.logicError` constructor.
* `std::unordered_map` is embedded as an association list with move-to-front
  assignment (`mapSet`); only lookup and iteration-as-a-set are used.
* Definitions whose doc string starts with `Modelled from the spec:` embed
  code of the repository that is not under `src/` (only its callers are);
  they follow the specification's words for the missing part.
-/

namespace OpmSpec

/-! ### Name trimming (`trim_copy`, `trim_wgname`) -/

/-! ### Claims C1, C2, C7 -/

/-! ### WPIMULT (`handleWPIMULT`, KeywordHandlers.cpp:1636-1681) -/

/-! ### Well lists (`WList`, `handleWLIST`) -/

/-! ### Wells and the WCON*/WEFAC/COMPDAT handlers -/

/-- Source location of a deck keyword (file + line), as carried by
`KeywordLocation` / `OpmInputError`. -/
structure KeywordLocation where
  filename : String
  lineno : Nat
deriving DecidableEq, Repr

/-- The exceptions that can escape a keyword handler.
`opmInputError` is the structured input error (`Opm::OpmInputError`,
not under `src/`; modelled from the spec as carrying a message and a
source location).  `logicError` embeds `std::logic_error` and its
subclasses (`std::invalid_argument`, `std::out_of_range`).  `otherError`
embeds every other `std::exception` (e.g. `std::runtime_error`). -/
inductive Exn where
  | opmInputError (msg : String) (loc : KeywordLocation)
  | logicError (msg : String)
  | otherError (msg : String)
deriving DecidableEq, Repr

/-- A keyword handler, as seen by the dispatcher: a mutation of the
schedule state that can throw (`handler(HandlerContext&) -> void`). -/
def Handler (σ : Type) := σ → Except Exn σ

/-- Association-list lookup, the embedding of
`std::unordered_map::find`. -/
def lookupName {σ : Type} (reg : List (String × Handler σ)) (name : String) :
    Option (Handler σ) :=
  match reg with
  | [] => none
  | (k, h) :: rest => if k = name then some h else lookupName rest name

/-- The `try`/`catch` re-wrapping block that every domain dispatcher
(`handleGroupKeyword`, `handleMSWKeyword`, `handleNetworkKeyword`,
`handleUDQKeyword`, `Schedule::handleNormalKeyword`) wraps around the
handler invocation: `OpmInputError` is re-thrown unchanged, a
`std::logic_error` is re-wrapped as an `OpmInputError` with the message
prefixed by `"Internal error: "` and the current keyword's location, and
any other exception is re-wrapped as an `OpmInputError` at the keyword's
location. -/
def wrapHandlerErrors {σ : Type} (loc : KeywordLocation) (r : Except Exn σ) :
    Except Exn σ :=
  match r with
  | .ok s => .ok s
  | .error (.opmInputError msg l) => .error (.opmInputError msg l)
  | .error (.logicError msg) =>
      .error (.opmInputError ("Internal error: " ++ msg) loc)
  | .error (.otherError msg) => .error (.opmInputError msg loc)

/-- The per-domain keyword registries.  The name-to-handler maps are
`static` data in the source; their handler entries are opaque state
transformers here.  `genericMember` embeds the (empty) `handler_functions`
map of member handlers and `genericPriv` the `priv_handler_functions` map
in `Schedule::handleNormalKeyword`; the MSW registry is declared in
`KeywordHandlers.cpp` but its definition is not under `src/`. -/
structure Registries (σ : Type) where
  group : List (String × Handler σ)
  msw : List (String × Handler σ)
  network : List (String × Handler σ)
  udq : List (String × Handler σ)
  genericMember : List (String × Handler σ)
  genericPriv : List (String × Handler σ)

/-- One domain dispatcher (`handleGroupKeyword` etc.): look the keyword
name up in the domain's map; on a miss report `none` (the C++ `return
false`), on a hit invoke the handler inside the re-wrapping `try`/`catch`
and report the outcome (the C++ `return true`, or an escaping
exception). -/
def tryRegistry {σ : Type} (reg : List (String × Handler σ))
    (name : String) (loc : KeywordLocation) (s : σ) : Option (Except Exn σ) :=
  match lookupName reg name with
  | none => none
  | some h => some (wrapHandlerErrors loc (h s))

/-- `handleGroupKeyword` (Group/KeywordHandlers.cpp). -/
def handleGroupKeyword {σ : Type} (R : Registries σ) (name : String)
    (loc : KeywordLocation) (s : σ) : Option (Except Exn σ) :=
  tryRegistry R.group name loc s

/-- `handleMSWKeyword`; its registry contents are not under `src/`. -/
def handleMSWKeyword {σ : Type} (R : Registries σ) (name : String)
    (loc : KeywordLocation) (s : σ) : Option (Except Exn σ) :=
  tryRegistry R.msw name loc s

/-- `handleNetworkKeyword` (Network/KeywordHandlers.cpp). -/
def handleNetworkKeyword {σ : Type} (R : Registries σ) (name : String)
    (loc : KeywordLocation) (s : σ) : Option (Except Exn σ) :=
  tryRegistry R.network name loc s

/-- `handleUDQKeyword` (UDQ/KeywordHandlers.cpp). -/
def handleUDQKeyword {σ : Type} (R : Registries σ) (name : String)
    (loc : KeywordLocation) (s : σ) : Option (Except Exn σ) :=
  tryRegistry R.udq name loc s

/-- `Schedule::handleNormalKeyword` (KeywordHandlers.cpp:2181-2325): try
the Group, MSW, Network and UDQ domains in that order; then look the name
up in the two generic maps (`handler_functions`, which is empty in the
source, and `priv_handler_functions`); if neither contains it return
`false` without touching the state, otherwise invoke the member handler
if found, else the private one, inside the re-wrapping `try`/`catch`. -/
def handleNormalKeyword {σ : Type} (R : Registries σ) (name : String)
    (loc : KeywordLocation) (s : σ) : Except Exn (Bool × σ) :=
  match handleGroupKeyword R name loc s with
  | some r => r.map (fun s1 => (true, s1))
  | none =>
  match handleMSWKeyword R name loc s with
  | some r => r.map (fun s1 => (true, s1))
  | none =>
  match handleNetworkKeyword R name loc s with
  | some r => r.map (fun s1 => (true, s1))
  | none =>
  match handleUDQKeyword R name loc s with
  | some r => r.map (fun s1 => (true, s1))
  | none =>
  match lookupName R.genericMember name, lookupName R.genericPriv name with
  | none, none => .ok (false, s)
  | some h, _ => (wrapHandlerErrors loc (h s)).map (fun s1 => (true, s1))
  | none, some h => (wrapHandlerErrors loc (h s)).map (fun s1 => (true, s1))

/-- The specification's view of top-level dispatch: the first registry, in
the order Group, MSW, Network, UDQ, generic (member map before private
map), that contains the keyword name wins. -/
def firstRegistryMatch {σ : Type} (R : Registries σ) (name : String) :
    Option (Handler σ) :=
  match lookupName R.group name with
  | some h => some h
  | none =>
  match lookupName R.msw name with
  | some h => some h
  | none =>
  match lookupName R.network name with
  | some h => some h
  | none =>
  match lookupName R.udq name with
  | some h => some h
  | none =>
  match lookupName R.genericMember name with
  | some h => some h
  | none => lookupName R.genericPriv name

/-- The whitespace set `" \t\n\r\f\v"` used by
`trim_copy` (opm/parser/eclipse/Utility/String.hpp). -/
def isTrimWhitespace (c : Char) : Bool :=
  c = ' ' || c = '\t' || c = '\n' || c = '\r' ||
    c = Char.ofNat 12 || c = Char.ofNat 11

/-- `trim_copy` (opm/parser/eclipse/Utility/String.hpp): computes
`find_last_not_of(" \t\n\r\f\v")` and, when some character is outside the
whitespace set, returns `substr(0, end + 1)`, i.e. the string up to and
including its last non-whitespace character; when every character is
whitespace it returns `""`.  (`substr(0, end + 1)` with `end` the index of
the last non-whitespace character is the same as dropping the trailing
whitespace run, which is how it is written here; the initial
`std::string(s.c_str())` copy is the identity for the NUL-free deck
strings.)  Note that the function never touches leading characters. -/
def trim_copy (s : String) : String :=
  String.mk (((s.data.reverse).dropWhile isTrimWhitespace).reverse)

/-- `trim_wgname` (KeywordHandlers.cpp:138-148): unconditionally replace
the well/group name argument by `trim_copy` of it, and additionally raise
the policy-gated `ParseContext::PARSE_WGNAME_SPACE` diagnostic exactly
when trimming changed the value.  The returned pair is (name used
downstream, whether the diagnostic was raised); the `ParseContext` policy
only decides how a raised diagnostic is surfaced, never the name. -/
def trim_wgname (wgname_arg : String) : String × Bool :=
  let wgname := trim_copy wgname_arg
  (wgname, decide (wgname ≠ wgname_arg))

/-- A concrete registry exercising the dispatcher claims: the group
registry holds a handler that throws a `std::logic_error`. -/
def exampleRegistries : Registries Nat where
  group := [("GRUPTREE", fun _ => Except.error (Exn.logicError "boom"))]
  msw := []
  network := []
  udq := []
  genericMember := []
  genericPriv := []

/-- One integer deck item of a record: its value and whether the default
was applied (`DeckItem::defaultApplied(0)` / `get<int>(0)`). -/
structure DeckIntItem where
  defaultApplied : Bool
  value : Int
deriving DecidableEq, Repr

/-- One WPIMULT record: the well name pattern (item `"WELL"`), the
multiplier (item `"WELLPI"`), and the remaining items — I, J, K and the
completion-number range — i.e. the items from the third one onward that
`defaultConCompRec` inspects. -/
structure WPIMULTRecord where
  well : String
  wellpi : Rat
  conComp : List DeckIntItem
deriving DecidableEq, Repr

/-- `defaultConCompRec` (the lambda in `handleWPIMULT`): a record counts
as having defaulted connection/completion information when every item
from the third one onward either has the default applied or holds a
negative value. -/
def defaultConCompRec (r : WPIMULTRecord) : Bool :=
  r.conComp.all (fun item => item.defaultApplied || decide (item.value < 0))

/-- Assignment into the `std::unordered_map<std::string, double>` used as
the WPIMULT side channel (`(*wpimult_global_factor)[wname] = factor`). -/
def mapSet (m : List (String × Rat)) (k : String) (v : Rat) :
    List (String × Rat) :=
  (k, v) :: m.filter (fun p => p.1 ≠ k)

/-- Lookup in the side-channel map. -/
def mapLookup (m : List (String × Rat)) (k : String) : Option Rat :=
  (m.find? (fun p => p.1 == k)).map (fun p => p.2)

/-- The state threaded through WPIMULT processing: the side-channel
deferred-multiplier map owned by the driver and shared by all WPIMULT
keywords of the report step, and the sequence of immediate per-record
applications.  Modelled from the spec: `Well::handleWPIMULT` (Well.cpp is
not under `src/`) applies the record's multiplier to the addressed
connections of the well; it is modelled by recording the (well, record)
application, in processing order, in `applied`. -/
structure WPIMULTState where
  globalFactor : List (String × Rat)
  applied : List (String × WPIMULTRecord)
deriving DecidableEq, Repr

/-- The body of the per-record loop of `handleWPIMULT`
(KeywordHandlers.cpp:1651-1680): resolve the well names (`ρ` embeds
`HandlerContext::wellNames`); a record with defaulted
connection/completion information only stores its multiplier into the
side-channel map for each resolved well and is not applied; any other
record is applied immediately to each resolved well.  (The source throws
`std::runtime_error` when the side-channel pointer is null; during report
step processing the driver always supplies the map, and the embedding
keeps it always present.) -/
def handleWPIMULTRecord (ρ : String → List String) (s : WPIMULTState)
    (r : WPIMULTRecord) : WPIMULTState :=
  if defaultConCompRec r then
    { s with
      globalFactor :=
        (ρ r.well).foldl (fun m w => mapSet m w r.wellpi) s.globalFactor }
  else
    { s with applied := s.applied ++ (ρ r.well).map (fun w => (w, r)) }

/-- `handleWPIMULT`: process the keyword's records in order. -/
def handleWPIMULT (ρ : String → List String) (records : List WPIMULTRecord)
    (s : WPIMULTState) : WPIMULTState :=
  records.foldl (handleWPIMULTRecord ρ) s

/-- Processing all WPIMULT keywords of one report step: the driver
invokes `handleWPIMULT` once per keyword, threading the same side-channel
map through all of them. -/
def processWPIMULTStep (ρ : String → List String)
    (kws : List (List WPIMULTRecord)) (s : WPIMULTState) : WPIMULTState :=
  kws.foldl (fun s1 recs => handleWPIMULT ρ recs s1) s

/-- `WList` (WList.cpp): an ordered list of well names. -/
structure WList where
  well_list : List String
deriving DecidableEq, Repr

/-- `WList::has` (WList.cpp:43-45): `std::count(...) > 0`. -/
def WList.has (l : WList) (well : String) : Bool :=
  decide (l.well_list.count well > 0)

/-- `WList::add` (WList.cpp:47-51): append the well only when it is not
already in the list. -/
def WList.add (l : WList) (well : String) : WList :=
  if l.well_list.count well = 0 then ⟨l.well_list ++ [well]⟩ else l

/-- `WList::del` (WList.cpp:62-65): `std::remove` + `erase`, removing
every occurrence of the well. -/
def WList.del (l : WList) (well : String) : WList :=
  ⟨l.well_list.filter (fun x => x ≠ well)⟩

/-- Modelled from the spec: the well-list manager (`WListManager`, not
under `src/`) maintains the named well lists. -/
structure WListManager where
  wlists : List (String × WList)
deriving DecidableEq, Repr

/-- Modelled from the spec: the manager's list of the given name. -/
def WListManager.getList (m : WListManager) (name : String) : Option WList :=
  (m.wlists.find? (fun p => p.1 == name)).map (fun p => p.2)

/-- Modelled from the spec: whether the manager has a list of the name. -/
def WListManager.hasList (m : WListManager) (name : String) : Bool :=
  (m.getList name).isSome

/-- Modelled from the spec: `WListManager::newList` creates a list of the
given name holding the given wells, replacing any existing list of that
name. -/
def WListManager.newList (m : WListManager) (name : String)
    (wells : List String) : WListManager :=
  ⟨(name, ⟨wells⟩) :: m.wlists.filter (fun p => p.1 ≠ name)⟩

/-- Modelled from the spec: `WListManager::addWListWell` adds the well to
the named list (union). -/
def WListManager.addWListWell (m : WListManager) (well name : String) :
    WListManager :=
  ⟨m.wlists.map (fun p => if p.1 = name then (p.1, p.2.add well) else p)⟩

/-- Modelled from the spec: `WListManager::delWListWell` removes the well
from the named list (set difference). -/
def WListManager.delWListWell (m : WListManager) (well name : String) :
    WListManager :=
  ⟨m.wlists.map (fun p => if p.1 = name then (p.1, p.2.del well) else p)⟩

/-- Modelled from the spec: `WListManager::delWell` removes the well from
every list. -/
def WListManager.delWell (m : WListManager) (well : String) : WListManager :=
  ⟨m.wlists.map (fun p => (p.1, p.2.del well))⟩

/-- Whether `needle` starts `hay` (helper for `std::string::find`). -/
def charsStartWith : List Char → List Char → Bool
  | [], _ => true
  | _ :: _, [] => false
  | a :: as, b :: bs => a == b && charsStartWith as bs

/-- Whether `needle` occurs somewhere in `hay`. -/
def charsContain : List Char → List Char → Bool
  | [], needle => charsStartWith needle []
  | a :: t, needle => charsStartWith needle (a :: t) || charsContain t needle

/-- `hay.find(needle) != std::string::npos`: `needle` is a (possibly
empty) substring of `hay`. -/
def strContains (hay needle : String) : Bool :=
  charsContain hay.data needle.data

/-- The `legal_actions` string of `handleWLIST`
(KeywordHandlers.cpp:1504). -/
def legal_actions : String := "NEW:ADD:DEL:MOV"

/-- One WLIST record: list name (item `"NAME"`), action (item
`"ACTION"`), and well arguments (item `"WELLS"`). -/
structure WLISTRecord where
  name : String
  action : String
  well_args : List String
deriving DecidableEq, Repr

/-- The well-argument resolution loop of `handleWLIST`
(KeywordHandlers.cpp:1516-1523): each argument is resolved through
`wellNames(arg, true)` (embedded by `ρ`); an argument that resolves to
nothing and contains no `*` is an undefined well and throws
(`std::invalid_argument`, a `std::logic_error`); otherwise the resolved
names are accumulated in order. -/
def resolveWellArgs (ρ : String → List String) :
    List String → Except Exn (List String)
  | [] => .ok []
  | arg :: rest =>
      let names := ρ arg
      if names.isEmpty && !(strContains arg "*") then
        .error (.logicError
          ("The well: " ++ arg ++ " has not been defined in the WELSPECS"))
      else
        match resolveWellArgs ρ rest with
        | .error e => .error e
        | .ok ws => .ok (names ++ ws)

/-- The per-record body of `handleWLIST` (KeywordHandlers.cpp:1505-1553):
reject an action that is not a substring of `legal_actions`; resolve the
well arguments; require the list name to start with `*`; `NEW` creates
(replacing) the named list; a missing list is an error; `MOV` first
removes the wells from every list; `DEL` removes them from the named
list, every non-`NEW` remaining action adds them to it; the updated
manager is committed. -/
def handleWLISTRecord (ρ : String → List String) (wlm : WListManager)
    (r : WLISTRecord) : Except Exn WListManager :=
  if strContains legal_actions r.action = false then
    .error (.logicError ("The action:" ++ r.action ++ " is not recognized."))
  else
    match resolveWellArgs ρ r.well_args with
    | .error e => .error e
    | .ok wells =>
      if r.name.data.head? ≠ some '*' then
        .error (.logicError "The list name in WLIST must start with a '*'")
      else
        let wlm1 := if r.action = "NEW" then wlm.newList r.name wells else wlm
        if wlm1.hasList r.name = false then
          .error (.logicError ("Invalid well list: " ++ r.name))
        else
          let wlm2 :=
            if r.action = "MOV" then
              wells.foldl (fun m w => m.delWell w) wlm1
            else wlm1
          let wlm3 :=
            if r.action = "DEL" then
              wells.foldl (fun m w => m.delWListWell w r.name) wlm2
            else if r.action ≠ "NEW" then
              wells.foldl (fun m w => m.addWListWell w r.name) wlm2
            else wlm2
          .ok wlm3

/-- `handleWLIST` (KeywordHandlers.cpp:1502-1554): the record loop;
records are processed in order, each committing its updated manager
(`wlist_manager.update`) before the next is read. -/
def handleWLIST (ρ : String → List String) (wlm : WListManager) :
    List WLISTRecord → Except Exn WListManager
  | [] => .ok wlm
  | r :: rest =>
      match handleWLISTRecord ρ wlm r with
      | .error e => .error e
      | .ok wlm1 => handleWLIST ρ wlm1 rest

/-- A concrete exact-name resolver for the witnesses. -/
def exampleResolver : String → List String :=
  fun a => if a = "W1" then ["W1"] else if a = "W2" then ["W2"] else []

/-- Well status (`Well::Status`). -/
inductive WellStatus where
  | OPEN | SHUT | AUTO | STOP
deriving DecidableEq, Repr

/-- The typed schedule events the embedded handlers emit
(`ScheduleEvents`). -/
inductive ScheduleEvent where
  | COMPLETION_CHANGE
  | WELL_SWITCHED_INJECTOR_PRODUCER
  | PRODUCTION_UPDATE
  | INJECTION_UPDATE
  | INJECTION_TYPE_CHANGED
  | REQUEST_OPEN_WELL
  | WELLGROUP_EFFICIENCY_UPDATE
deriving DecidableEq, Repr

/-- A UDA value: either a plain number or a reference to a named
user-defined quantity. -/
inductive UDAValue where
  | num (v : Rat)
  | uda (name : String)
deriving DecidableEq, Repr

/-- `UDAValue::is<double>()`. -/
def UDAValue.isDouble : UDAValue → Bool
  | .num _ => true
  | .uda _ => false

/-- `UDAValue::zero()`: the numeric content compared with zero.  In the
source this is only called where the value is known to be numeric (after
an `is<double>` guard, or in history mode); on a UDA reference it is
modelled as `false`. -/
def UDAValue.zero : UDAValue → Bool
  | .num v => decide (v = 0)
  | .uda _ => false

/-- Injector control modes (`Well::InjectorCMode`). -/
inductive InjectorCMode where
  | RATE | RESV | BHP | THP | GRUP
deriving DecidableEq, Repr

/-- Producer control modes (`Well::ProducerCMode`). -/
inductive ProducerCMode where
  | ORAT | WRAT | GRAT | LRAT | RESV | BHP | THP | GRUP
deriving DecidableEq, Repr

/-- An item holding a UDA value together with its default-applied flag. -/
structure DeckUDAItem where
  defaultApplied : Bool
  value : UDAValue
deriving DecidableEq, Repr

/-- Modelled from the spec: `Well::WellInjectionProperties` (Well.cpp is
not under `src/`) — injector type, surface/reservoir rate targets as UDA
values, BHP target, and the active-control bitmask. -/
structure WellInjectionProperties where
  injectorType : String
  surfaceInjectionRate : UDAValue
  reservoirInjectionRate : UDAValue
  BHPTarget : Rat
  controls : List InjectorCMode
deriving DecidableEq, Repr

/-- `hasInjectionControl`: membership in the control bitmask. -/
def WellInjectionProperties.hasInjectionControl
    (p : WellInjectionProperties) (c : InjectorCMode) : Bool :=
  p.controls.contains c

/-- Modelled from the spec: `resetBHPLimit` clears the BHP-limit control
state of the injection properties. -/
def WellInjectionProperties.resetBHPLimit (p : WellInjectionProperties) :
    WellInjectionProperties :=
  { p with BHPTarget := 0 }

/-- Modelled from the spec: `Well::WellProductionProperties` — rate
targets as UDA values, the BHP limit with its defaulted flag, the VFP
table number and the active-control bitmask. -/
structure WellProductionProperties where
  OilRate : UDAValue
  WaterRate : UDAValue
  GasRate : UDAValue
  BHPLimit : Rat
  bhp_limit_defaulted : Bool
  VFPTableNumber : Int
  controls : List ProducerCMode
deriving DecidableEq, Repr

/-- Modelled from the spec: `resetDefaultBHPLimit` restores the
BHP-limit-related defaults of the production properties (the default
limit, one atmosphere, in SI pascals). -/
def WellProductionProperties.resetDefaultBHPLimit
    (p : WellProductionProperties) : WellProductionProperties :=
  { p with BHPLimit := 101325, bhp_limit_defaulted := true }

/-- Modelled from the spec: `clearControls` empties the control
bitmask. -/
def WellProductionProperties.clearControls (p : WellProductionProperties) :
    WellProductionProperties :=
  { p with controls := [] }

/-- Modelled from the spec: `addProductionControl` adds one control to
the bitmask. -/
def WellProductionProperties.addProductionControl
    (p : WellProductionProperties) (c : ProducerCMode) :
    WellProductionProperties :=
  { p with controls := p.controls ++ [c] }

/-- One well connection, keyed by its grid cell. -/
structure Connection where
  i : Int
  j : Int
  k : Int
  CF : Rat
deriving DecidableEq, Repr

/-- Modelled from the spec: the `Well` entity of the schedule state
(Well.cpp is not under `src/`) — name, status, role, crossflow flag,
group-control availability, property blocks, efficiency factor,
prediction/history bookkeeping, connections, and flags standing in for
the WDFAC refresh and the reference-depth recomputation that COMPDAT
triggers. -/
structure Well where
  name : String
  status : WellStatus
  producer : Bool
  allowCrossFlow : Bool
  availableForGroupControl : Bool
  injection : WellInjectionProperties
  production : WellProductionProperties
  efficiencyFactor : Rat
  predictionMode : Bool
  hasProduced : Bool
  hasInjected : Bool
  connections : List Connection
  wdfacRefreshed : Bool
  refDepthRecomputed : Bool
deriving DecidableEq, Repr

/-- Modelled from the spec: switching an injector into a producer clears
the role-incompatible injection control state (injection BHP-limit
reset). -/
def Well.switchToProducer (w : Well) : Well :=
  { w with producer := true, injection := w.injection.resetBHPLimit }

/-- Modelled from the spec: switching a producer into an injector resets
the production BHP-limit defaults. -/
def Well.switchToInjector (w : Well) : Well :=
  { w with producer := false,
           production := w.production.resetDefaultBHPLimit }

/-- Modelled from the spec: `Well::updateInjection` switches a producer
into an injector and installs the new injection properties, reporting
whether the well changed. -/
def Well.updateInjection (w : Well) (p : WellInjectionProperties) :
    Well × Bool :=
  let w1 := if w.producer then w.switchToInjector else w
  if w1.injection = p then (w1, w.producer)
  else ({ w1 with injection := p }, true)

/-- Modelled from the spec: `Well::updateProduction` switches an injector
into a producer and installs the new production properties, reporting
whether the well changed. -/
def Well.updateProduction (w : Well) (p : WellProductionProperties) :
    Well × Bool :=
  let w1 := if w.producer then w else w.switchToProducer
  if w1.production = p then (w1, !w.producer)
  else ({ w1 with production := p }, true)

/-- Modelled from the spec: `Well::updatePrediction` with change
reporting. -/
def Well.updatePrediction (w : Well) (b : Bool) : Well × Bool :=
  if w.predictionMode = b then (w, false)
  else ({ w with predictionMode := b }, true)

/-- Modelled from the spec: `Well::updateHasProduced`. -/
def Well.updateHasProduced (w : Well) : Well × Bool :=
  if w.hasProduced then (w, false) else ({ w with hasProduced := true }, true)

/-- Modelled from the spec: `Well::updateHasInjected`. -/
def Well.updateHasInjected (w : Well) : Well × Bool :=
  if w.hasInjected then (w, false) else ({ w with hasInjected := true }, true)

/-- Modelled from the spec: `Well::updateEfficiencyFactor` with change
reporting (`update(...)` returns whether semantic state changed). -/
def Well.updateEfficiencyFactor (w : Well) (f : Rat) : Well × Bool :=
  if w.efficiencyFactor = f then (w, false)
  else ({ w with efficiencyFactor := f }, true)

/-- Modelled from the spec: `Well::updateConnections` installs the new
connection set with change reporting. -/
def Well.updateConnections (w : Well) (c : List Connection) : Well × Bool :=
  if w.connections = c then (w, false)
  else ({ w with connections := c }, true)

/-- The slice of the current `ScheduleState` (plus the log sink and the
`SimulatorUpdate` side channel) that the embedded well handlers read and
mutate: the well collection, the per-step event set, the per-entity
(well/group) event set, the notes written through `OpmLog::note`, the
UDQ-active bookkeeping, and the `SimulatorUpdate` accumulators. -/
structure SchedState where
  wells : List (String × Well)
  stepEvents : List ScheduleEvent
  wellgroupEvents : List (String × ScheduleEvent)
  notes : List String
  udqActiveWells : List String
  affectedWells : List String
  wellStructureChanged : Bool
deriving DecidableEq, Repr

/-- `state().wells.get(name)` (missing wells would throw). -/
def SchedState.getWell (s : SchedState) (n : String) : Option Well :=
  (s.wells.find? (fun p => p.1 == n)).map (fun p => p.2)

/-- `state().wells.update(well)`: replace the stored well keyed by the
well's name (the handlers only store back wells fetched from the
collection). -/
def SchedState.setWell (s : SchedState) (w : Well) : SchedState :=
  { s with wells := s.wells.map (fun p => if p.1 = w.name then (p.1, w) else p) }

/-- `state().events().addEvent(e)`. -/
def SchedState.addStepEvent (s : SchedState) (e : ScheduleEvent) : SchedState :=
  { s with stepEvents := s.stepEvents ++ [e] }

/-- `state().wellgroup_events().addEvent(name, e)`. -/
def SchedState.addWGEvent (s : SchedState) (n : String) (e : ScheduleEvent) :
    SchedState :=
  { s with wellgroupEvents := s.wellgroupEvents ++ [(n, e)] }

/-- `OpmLog::note(msg)`. -/
def SchedState.addNote (s : SchedState) (m : String) : SchedState :=
  { s with notes := s.notes ++ [m] }

/-- Modelled from the spec: `Schedule::updateWellStatus` (Schedule.cpp is
not under `src/`) applies a status transition to the stored well,
reporting whether the status actually changed.  (The status-change events
it additionally emits are not inspected by any claim and are not
modelled.) -/
def updateWellStatus (s : SchedState) (n : String) (st : WellStatus) :
    SchedState × Bool :=
  match s.getWell n with
  | none => (s, false)
  | some w =>
      if w.status = st then (s, false)
      else (s.setWell { w with status := st }, true)

/-- Modelled from the spec: `WellStatusFromString` maps the deck status
mnemonics onto the status enum and throws on anything else. -/
def WellStatusFromString (str : String) : Except Exn WellStatus :=
  if str = "OPEN" then .ok .OPEN
  else if str = "SHUT" then .ok .SHUT
  else if str = "STOP" then .ok .STOP
  else if str = "AUTO" then .ok .AUTO
  else .error (.otherError ("Unknown enum state string: " ++ str))

/-- One WCONINJE record: the well pattern, status, injector type, active
control mode, and the UDA-capable targets. -/
structure WCONINJERecord where
  well : String
  status : String
  injType : String
  cmode : String
  surfaceRate : DeckUDAItem
  reservoirRate : DeckUDAItem
  bhp : DeckUDAItem
  thp : DeckUDAItem
deriving DecidableEq, Repr

/-- Modelled from the spec: `WellInjectionProperties::handleWCONINJE`
reads the record's targets as UDA values, tracks which targets were not
defaulted to build the control-mode bitmask, and adds the GRUP control
when the well is available for group control. -/
def WellInjectionProperties.handleWCONINJE (p : WellInjectionProperties)
    (r : WCONINJERecord) (availableForGroupControl : Bool) :
    WellInjectionProperties :=
  { injectorType := r.injType
    surfaceInjectionRate := r.surfaceRate.value
    reservoirInjectionRate := r.reservoirRate.value
    BHPTarget :=
      match r.bhp.value with
      | .num v => v
      | .uda _ => p.BHPTarget
    controls :=
      (if !r.surfaceRate.defaultApplied then [InjectorCMode.RATE] else []) ++
      (if !r.reservoirRate.defaultApplied then [InjectorCMode.RESV] else []) ++
      (if !r.thp.defaultApplied then [InjectorCMode.THP] else []) ++
      [InjectorCMode.BHP] ++
      (if availableForGroupControl then [InjectorCMode.GRUP] else []) }

/-- Modelled from the spec: UDQ-active bookkeeping
(`updateUDQActive`) — injection targets given as UDA references mark the
well's UDQ usage, committed through `udq_active.update`. -/
def updateUDQActiveInj (s : SchedState) (well_name : String)
    (p : WellInjectionProperties) : SchedState :=
  if p.surfaceInjectionRate.isDouble && p.reservoirInjectionRate.isDouble then s
  else { s with udqActiveWells := s.udqActiveWells ++ [well_name] }

/-- Modelled from the spec: UDQ-active bookkeeping for production
targets. -/
def updateUDQActiveProd (s : SchedState) (well_name : String)
    (p : WellProductionProperties) : SchedState :=
  if p.OilRate.isDouble && p.WaterRate.isDouble && p.GasRate.isDouble then s
  else { s with udqActiveWells := s.udqActiveWells ++ [well_name] }

/-- `handlerContext.affected_well(name)`. -/
def SchedState.affectedWell (s : SchedState) (n : String) : SchedState :=
  { s with affectedWells := s.affectedWells ++ [n] }

/-- The note `handleWCONINJE`/`handleWCONINJH` logs before auto-shutting
a zero-rate injector with crossflow banned (the elapsed-days suffix of
the source message is not modelled — the embedding keeps no clock). -/
def noteCrossflowInjector (well_name : String) : String :=
  "Well " ++ well_name ++
    " is an injector with zero rate where crossflow is banned."

/-- The note `handleWCONHIST` logs before auto-shutting a zero-rate
history-matched producer with crossflow banned. -/
def noteCrossflowHistProducer (well_name : String) : String :=
  "Well " ++ well_name ++
    " is a history matched well with zero rate where crossflow is banned."

/-- The event-emission and conditional-commit block of `handleWCONINJE`
(KeywordHandlers.cpp:744-766): the role-switch event, then, when the well
actually changed, the injection-update events (plus the type-change event
when the injector type changed) and the store of the updated well. -/
def wconinjeEventsPhase (well_name : String) (previousInjectorType : String)
    (injection : WellInjectionProperties) (switching_from_producer : Bool)
    (update_well : Bool) (well2c : Well) (s : SchedState) : SchedState :=
  let s := if switching_from_producer then
      s.addWGEvent well_name .WELL_SWITCHED_INJECTOR_PRODUCER
    else s
  if update_well then
    let s := s.addStepEvent .INJECTION_UPDATE
    let s := s.addWGEvent well_name .INJECTION_UPDATE
    let s := if previousInjectorType ≠ injection.injectorType then
        s.addWGEvent well_name .INJECTION_TYPE_CHANGED
      else s
    s.setWell well2c
  else s

/-- The RATE half of the crossflow auto-shut block of `handleWCONINJE`
(KeywordHandlers.cpp:777-782): a numeric RATE control with zero target
logs a note and shuts the well. -/
def wconinjeCrossflowRATE (well_name : String)
    (injection : WellInjectionProperties) (s : SchedState) : SchedState :=
  if injection.surfaceInjectionRate.isDouble &&
      injection.hasInjectionControl .RATE &&
      injection.surfaceInjectionRate.zero then
    (updateWellStatus (s.addNote (noteCrossflowInjector well_name))
      well_name .SHUT).1
  else s

/-- The RESV half of the crossflow auto-shut block of `handleWCONINJE`
(KeywordHandlers.cpp:784-789). -/
def wconinjeCrossflowRESV (well_name : String)
    (injection : WellInjectionProperties) (s : SchedState) : SchedState :=
  if injection.reservoirInjectionRate.isDouble &&
      injection.hasInjectionControl .RESV &&
      injection.reservoirInjectionRate.zero then
    (updateWellStatus (s.addNote (noteCrossflowInjector well_name))
      well_name .SHUT).1
  else s

/-- The crossflow auto-shut block of `handleWCONINJE`
(KeywordHandlers.cpp:768-790): when crossflow is banned, the RATE check
runs first and the RESV check second. -/
def wconinjeCrossflowPhase (well_name : String)
    (injection : WellInjectionProperties) (allowCrossFlow : Bool)
    (s : SchedState) : SchedState :=
  if allowCrossFlow = false then
    wconinjeCrossflowRESV well_name injection
      (wconinjeCrossflowRATE well_name injection s)
  else s

/-- The per-well body of `handleWCONINJE`
(KeywordHandlers.cpp:730-804): status transition from the record, fetch,
build the new injection properties, conditional commit with events,
crossflow auto-shut, the open-request event, UDQ-active bookkeeping, and
the affected-well side channel. -/
def handleWCONINJEwell (r : WCONINJERecord) (st : WellStatus)
    (s0 : SchedState) (well_name : String) : Except Exn SchedState :=
  let s := (updateWellStatus s0 well_name st).1
  match s.getWell well_name with
  | none => .error (.logicError "out_of_range: no such well")
  | some well2 =>
    let injection := well2.injection.handleWCONINJE r
      well2.availableForGroupControl
    let previousInjectorType := well2.injection.injectorType
    let switching_from_producer := well2.producer
    let u1 := well2.updateInjection injection
    let u2 := u1.1.updatePrediction true
    let u3 := u2.1.updateHasInjected
    let update_well := u1.2 || u2.2 || u3.2
    let s := wconinjeEventsPhase well_name previousInjectorType injection
      switching_from_producer update_well u3.1 s
    let s := wconinjeCrossflowPhase well_name injection u3.1.allowCrossFlow s
    let s := if (s.getWell well_name).map (fun w1 => w1.status) =
        some WellStatus.OPEN then
        s.addWGEvent well_name .REQUEST_OPEN_WELL
      else s
    let s := updateUDQActiveInj s well_name injection
    .ok (s.affectedWell well_name)

/-- One WCONHIST record: history rates are plain numbers; the VFP table
item keeps its default flag. -/
structure WCONHISTRecord where
  well : String
  status : String
  cmode : String
  oilRate : Rat
  waterRate : Rat
  gasRate : Rat
  vfp_table : DeckIntItem
deriving DecidableEq, Repr

/-- Modelled from the spec:
`WellProductionProperties::handleWCONHIST` installs the observed history
rates and the VFP table number. -/
def WellProductionProperties.handleWCONHIST (p : WellProductionProperties)
    (r : WCONHISTRecord) : WellProductionProperties :=
  { p with
    OilRate := .num r.oilRate
    WaterRate := .num r.waterRate
    GasRate := .num r.gasRate
    VFPTableNumber :=
      if r.vfp_table.defaultApplied then p.VFPTableNumber
      else r.vfp_table.value }

/-- The per-well body of `handleWCONHIST`
(KeywordHandlers.cpp:647-718): status transition, VFP-table check, record
application, the producer-switch reset of both BHP-limit defaults with
the role-switch event, conditional commit with production-update events,
and the history-mode crossflow auto-shut. -/
def handleWCONHISTwell (vfpprod : List Int) (loc : KeywordLocation)
    (r : WCONHISTRecord) (st : WellStatus) (s0 : SchedState)
    (well_name : String) : Except Exn SchedState :=
  let s := (updateWellStatus s0 well_name st).1
  match s.getWell well_name with
  | none => .error (.logicError "out_of_range: no such well")
  | some well2 =>
    let switching_from_injector := !well2.producer
    let table_nr := if r.vfp_table.defaultApplied then
        well2.production.VFPTableNumber
      else r.vfp_table.value
    if table_nr ≠ 0 && !(vfpprod.contains table_nr) then
      .error (.opmInputError
        ("Problem with well:" ++ well_name ++ " VFP table not defined") loc)
    else
      let properties1 := well2.production.handleWCONHIST r
      let properties := if switching_from_injector then
          properties1.resetDefaultBHPLimit
        else properties1
      let swu := if switching_from_injector then
          ((well2.updateInjection well2.injection.resetBHPLimit).1, true)
        else (well2, false)
      let s := if switching_from_injector then
          s.addWGEvent well_name .WELL_SWITCHED_INJECTOR_PRODUCER
        else s
      let u1 := swu.1.updateProduction properties
      let u2 := u1.1.updatePrediction false
      let u3 := u2.1.updateHasProduced
      let update_well := swu.2 || u1.2 || u2.2 || u3.2
      let s := if update_well then
          ((s.addStepEvent .PRODUCTION_UPDATE).addWGEvent well_name
            .PRODUCTION_UPDATE).setWell u3.1
        else s
      let s := if u3.1.allowCrossFlow = false &&
          properties.OilRate.zero && properties.WaterRate.zero &&
          properties.GasRate.zero then
          (updateWellStatus (s.addNote (noteCrossflowHistProducer well_name))
            well_name .SHUT).1
        else s
      .ok s

/-- One WCONPROD record. -/
structure WCONPRODRecord where
  well : String
  status : String
  cmode : String
  orat : DeckUDAItem
  wrat : DeckUDAItem
  grat : DeckUDAItem
  bhp : DeckUDAItem
  thp : DeckUDAItem
  vfp_table : DeckIntItem
deriving DecidableEq, Repr

/-- Modelled from the spec:
`WellProductionProperties::handleWCONPROD` installs the UDA-capable
targets, activates the controls for the non-defaulted targets, and keeps
the VFP table number. -/
def WellProductionProperties.handleWCONPROD (p : WellProductionProperties)
    (r : WCONPRODRecord) : WellProductionProperties :=
  { p with
    OilRate := r.orat.value
    WaterRate := r.wrat.value
    GasRate := r.grat.value
    BHPLimit :=
      match r.bhp.value with
      | .num v => v
      | .uda _ => p.BHPLimit
    bhp_limit_defaulted := r.bhp.defaultApplied
    VFPTableNumber :=
      if r.vfp_table.defaultApplied then p.VFPTableNumber
      else r.vfp_table.value
    controls := p.controls ++
      (if !r.orat.defaultApplied then [ProducerCMode.ORAT] else []) ++
      (if !r.wrat.defaultApplied then [ProducerCMode.WRAT] else []) ++
      (if !r.grat.defaultApplied then [ProducerCMode.GRAT] else []) ++
      [ProducerCMode.BHP] ++
      (if !r.thp.defaultApplied then [ProducerCMode.THP] else []) }

/-- The per-well body of `handleWCONPROD`
(KeywordHandlers.cpp:872-936): status transition (its change flag seeds
`update_well`), control reset plus GRUP for group-available wells,
VFP-table check, record application, the injector-switch reset of the
production BHP-limit defaults with the role-switch event, the
open-request event, conditional commit with production-update events,
UDQ bookkeeping and the affected-well side channel. -/
def handleWCONPRODwell (vfpprod : List Int) (loc : KeywordLocation)
    (r : WCONPRODRecord) (st : WellStatus) (s0 : SchedState)
    (well_name : String) : Except Exn SchedState :=
  let us := updateWellStatus s0 well_name st
  let s := us.1
  match s.getWell well_name with
  | none => .error (.logicError "out_of_range: no such well")
  | some well2 =>
    let switching_from_injector := !well2.producer
    let p0 := well2.production.clearControls
    let p0 := if well2.availableForGroupControl then
        p0.addProductionControl .GRUP
      else p0
    let table_nr := if r.vfp_table.defaultApplied then
        well2.production.VFPTableNumber
      else r.vfp_table.value
    if table_nr ≠ 0 && !(vfpprod.contains table_nr) then
      .error (.opmInputError
        ("Problem with well:" ++ well_name ++ " VFP table not defined") loc)
    else
      let properties1 := p0.handleWCONPROD r
      let properties := if switching_from_injector then
          properties1.resetDefaultBHPLimit
        else properties1
      let s := if switching_from_injector then
          s.addWGEvent well_name .WELL_SWITCHED_INJECTOR_PRODUCER
        else s
      let u1 := well2.updateProduction properties
      let u2 := u1.1.updatePrediction true
      let u3 := u2.1.updateHasProduced
      let update_well :=
        us.2 || switching_from_injector || u1.2 || u2.2 || u3.2
      let s := if u3.1.status = WellStatus.OPEN then
          s.addWGEvent well_name .REQUEST_OPEN_WELL
        else s
      let s := if update_well then
          ((s.addStepEvent .PRODUCTION_UPDATE).addWGEvent well_name
            .PRODUCTION_UPDATE).setWell u3.1
        else s
      let s := updateUDQActiveProd s well_name properties
      .ok (s.affectedWell well_name)

/-- One WCONINJH record (history injection). -/
structure WCONINJHRecord where
  well : String
  status : String
  injType : String
  rate : Rat
deriving DecidableEq, Repr

/-- Modelled from the spec:
`WellInjectionProperties::handleWCONINJH` installs the observed surface
injection rate and the injector type. -/
def WellInjectionProperties.handleWCONINJH (p : WellInjectionProperties)
    (r : WCONINJHRecord) : WellInjectionProperties :=
  { p with
    injectorType := r.injType
    surfaceInjectionRate := .num r.rate }

/-- The per-well body of `handleWCONINJH`
(KeywordHandlers.cpp:815-859): status transition, record application,
conditional commit with the role-switch and injection-update events, and
the history-mode crossflow auto-shut. -/
def handleWCONINJHwell (r : WCONINJHRecord) (st : WellStatus)
    (s0 : SchedState) (well_name : String) : Except Exn SchedState :=
  let s := (updateWellStatus s0 well_name st).1
  match s.getWell well_name with
  | none => .error (.logicError "out_of_range: no such well")
  | some well2 =>
    let injection := well2.injection.handleWCONINJH r
    let previousInjectorType := well2.injection.injectorType
    let switching_from_producer := well2.producer
    let u1 := well2.updateInjection injection
    let u2 := u1.1.updatePrediction false
    let u3 := u2.1.updateHasInjected
    let update_well := u1.2 || u2.2 || u3.2
    let s := wconinjeEventsPhase well_name previousInjectorType injection
      switching_from_producer update_well u3.1 s
    let s := if u3.1.allowCrossFlow = false &&
        injection.surfaceInjectionRate.zero then
        (updateWellStatus (s.addNote (noteCrossflowInjector well_name))
          well_name .SHUT).1
      else s
    .ok s

/-- The per-well body of `handleWEFAC`
(KeywordHandlers.cpp:1004-1011): install the efficiency factor; only when
it actually changed are the efficiency-update events emitted and the well
stored back. -/
def handleWEFACwell (efficiencyFactor : Rat) (s : SchedState)
    (well_name : String) : Except Exn SchedState :=
  match s.getWell well_name with
  | none => .error (.logicError "out_of_range: no such well")
  | some well2 =>
    let u := well2.updateEfficiencyFactor efficiencyFactor
    if u.2 then
      .ok (((s.addWGEvent well_name .WELLGROUP_EFFICIENCY_UPDATE).addStepEvent
        .WELLGROUP_EFFICIENCY_UPDATE).setWell u.1)
    else .ok s

/-- One COMPDAT record, reduced to one connection's cell and
transmissibility factor. -/
structure COMPDATRecord where
  well : String
  i : Int
  j : Int
  k : Int
  CF : Rat
deriving DecidableEq, Repr

/-- Modelled from the spec: `WellConnections::loadCOMPDAT`
(WellConnections.cpp is not under `src/`) merges the record's connection
data into the connection set keyed by grid cell: an existing connection
in the same cell is replaced, otherwise a new connection is appended. -/
def loadCOMPDAT (r : COMPDATRecord) (conns : List Connection) :
    List Connection :=
  if conns.any (fun c => c.i == r.i && c.j == r.j && c.k == r.k) then
    conns.map (fun c =>
      if c.i == r.i && c.j == r.j && c.k == r.k then
        ⟨r.i, r.j, r.k, r.CF⟩
      else c)
  else conns ++ [⟨r.i, r.j, r.k, r.CF⟩]

/-- The per-well body of `handleCOMPDAT`
(KeywordHandlers.cpp:188-209): load the record into a copy of the well's
connections; only when they changed are the WDFAC refresh applied, the
well stored back, and the well added to the changed set; the per-entity
`COMPLETION_CHANGE` event, however, is added for every resolved well,
outside the change-gated block.  (The not-connected-to-grid warning is
log-only and not modelled.) -/
def handleCOMPDATwell (r : COMPDATRecord) (acc : SchedState × List String)
    (name : String) : Except Exn (SchedState × List String) :=
  let s := acc.1
  match s.getWell name with
  | none => .error (.logicError "out_of_range: no such well")
  | some well2 =>
    let connections := loadCOMPDAT r well2.connections
    let u := well2.updateConnections connections
    let acc1 :=
      if u.2 then
        (s.setWell { u.1 with wdfacRefreshed := true },
         acc.2 ++ (if acc.2.contains name then [] else [name]))
      else (s, acc.2)
    .ok (acc1.1.addWGEvent name .COMPLETION_CHANGE, acc1.2)

/-- The record × resolved-well loops of `handleCOMPDAT`. -/
def handleCOMPDATRecords (ρ : String → List String)
    (records : List COMPDATRecord) (acc : SchedState × List String) :
    Except Exn (SchedState × List String) :=
  match records with
  | [] => .ok acc
  | r :: rest =>
      let names := ρ r.well
      match goWells r names acc with
      | .error e => .error e
      | .ok acc1 => handleCOMPDATRecords ρ rest acc1
where
  goWells (r : COMPDATRecord) : List String → (SchedState × List String) →
      Except Exn (SchedState × List String)
    | [], acc => .ok acc
    | n :: rest, acc =>
        match handleCOMPDATwell r acc n with
        | .error e => .error e
        | .ok acc1 => goWells r rest acc1

/-- `handleCOMPDAT` (KeywordHandlers.cpp:181-226): the record loop, the
unconditional per-step `COMPLETION_CHANGE` event, the reference-depth
recomputation for the changed wells, and the structure-change side
channel when any well changed. -/
def handleCOMPDAT (ρ : String → List String) (records : List COMPDATRecord)
    (s : SchedState) : Except Exn SchedState :=
  match handleCOMPDATRecords ρ records (s, []) with
  | .error e => .error e
  | .ok (s1, changed) =>
      let s2 := s1.addStepEvent .COMPLETION_CHANGE
      let s3 := changed.foldl (fun st wn =>
          match st.getWell wn with
          | none => st
          | some w => st.setWell { w with refDepthRecomputed := true }) s2
      .ok (if changed.isEmpty then s3
        else { s3 with wellStructureChanged := true })

/-- Concrete injection properties for the witnesses. -/
def exampleInjProps : WellInjectionProperties :=
  ⟨"WATER", .num 1, .num 1, 5, []⟩

/-- Concrete production properties for the witnesses. -/
def exampleProdProps : WellProductionProperties :=
  ⟨.num 1, .num 1, .num 1, 3, false, 0, []⟩

/-- A concrete producer well banning crossflow, for the witnesses. -/
def exampleWell : Well :=
  ⟨"W1", .OPEN, true, false, true, exampleInjProps, exampleProdProps, 1,
    true, false, false, [⟨1, 1, 1, 2⟩], false, false⟩

/-- A concrete schedule state holding `exampleWell`. -/
def exampleSchedState : SchedState :=
  ⟨[("W1", exampleWell)], [], [], [], [], [], false⟩

/-- A concrete WCONINJE record with an explicit zero surface-rate
target. -/
def exampleWCONINJERecord : WCONINJERecord :=
  ⟨"W1", "OPEN", "WATER", "RATE", ⟨false, .num 0⟩, ⟨true, .num 0⟩,
    ⟨true, .num 5⟩, ⟨true, .num 0⟩⟩

/-- A concrete injector well (for the producer-switch witnesses). -/
def exampleInjectorWell : Well := { exampleWell with producer := false }

/-- A schedule state holding the injector well. -/
def exampleInjectorState : SchedState :=
  ⟨[("W1", exampleInjectorWell)], [], [], [], [], [], false⟩

/-- A concrete WCONHIST record with defaulted VFP table. -/
def exampleWCONHISTRecord : WCONHISTRecord :=
  ⟨"W1", "OPEN", "ORAT", 1, 1, 1, ⟨true, 0⟩⟩

/-- A concrete WCONPROD record with an explicit nonzero VFP table. -/
def exampleWCONPRODRecord : WCONPRODRecord :=
  ⟨"W1", "OPEN", "ORAT", ⟨false, .num 1⟩, ⟨true, .num 0⟩, ⟨true, .num 0⟩,
    ⟨true, .num 5⟩, ⟨true, .num 0⟩, ⟨false, 7⟩⟩

/-- A concrete WCONINJH record. -/
def exampleWCONINJHRecord : WCONINJHRecord := ⟨"W1", "OPEN", "WATER", 1⟩

/-- A concrete keyword location. -/
def exampleLoc : KeywordLocation := ⟨"DECK.DATA", 42⟩

/-- A COMPDAT record that re-specifies the existing connection of
`exampleWell` exactly, so that loading it changes nothing. -/
def exampleCOMPDATRecord : COMPDATRecord := ⟨"W1", 1, 1, 1, 2⟩

theorem handleNormalKeyword_eq_firstMatch {σ : Type} (R : Registries σ)
    (name : String) (loc : KeywordLocation) (s : σ) :
    handleNormalKeyword R name loc s =
      match firstRegistryMatch R name with
      | some h => (wrapHandlerErrors loc (h s)).map (fun s1 => (true, s1))
      | none => .ok (false, s) := by
  unfold handleNormalKeyword firstRegistryMatch handleGroupKeyword
    handleMSWKeyword handleNetworkKeyword handleUDQKeyword tryRegistry
  cases lookupName R.group name <;>
    cases lookupName R.msw name <;>
      cases lookupName R.network name <;>
        cases lookupName R.udq name <;>
          cases lookupName R.genericMember name <;>
            cases lookupName R.genericPriv name <;> rfl

/-- C2: top-level dispatch tries the domain registries in the fixed order
Group, MSW, Network, UDQ, generic; the first domain whose registry
contains the keyword name handles it (its wrapped handler result is the
whole result, so no later domain is consulted), and when no registry
contains the name the dispatcher returns `false` with the state
unchanged. -/
theorem C2_dispatch_order {σ : Type} (R : Registries σ) (name : String)
    (loc : KeywordLocation) (s : σ) :
    handleNormalKeyword R name loc s =
      match firstRegistryMatch R name with
      | some h => (wrapHandlerErrors loc (h s)).map (fun s1 => (true, s1))
      | none => .ok (false, s) :=
  handleNormalKeyword_eq_firstMatch R name loc s

/-- C1: a handler dispatched through a domain registry that throws a
generic logic error surfaces to the caller as a structured input error
whose message is `"Internal error: "` followed by the original message
and whose location is the processed keyword's location; a structured
input error thrown by the handler passes through unchanged. -/
theorem C1_internal_error_rewrapping {σ : Type} (R : Registries σ)
    (name : String) (loc : KeywordLocation) (s : σ) (h : Handler σ)
    (hfind : firstRegistryMatch R name = some h) :
    (∀ m, h s = .error (.logicError m) →
        handleNormalKeyword R name loc s =
          .error (.opmInputError ("Internal error: " ++ m) loc)) ∧
    (∀ m l, h s = .error (.opmInputError m l) →
        handleNormalKeyword R name loc s = .error (.opmInputError m l)) := by
  constructor
  · intro m hm
    rw [handleNormalKeyword_eq_firstMatch, hfind]
    simp only [hm, wrapHandlerErrors, Except.map]
  · intro m l hm
    rw [handleNormalKeyword_eq_firstMatch, hfind]
    simp only [hm, wrapHandlerErrors, Except.map]

theorem C1_internal_error_rewrapping_witness :
    handleNormalKeyword exampleRegistries "GRUPTREE" ⟨"DECK.DATA", 11⟩ 0 =
      .error (.opmInputError ("Internal error: " ++ "boom") ⟨"DECK.DATA", 11⟩) :=
  (C1_internal_error_rewrapping exampleRegistries "GRUPTREE" ⟨"DECK.DATA", 11⟩ 0
      (fun _ => Except.error (Exn.logicError "boom")) rfl).1 "boom" rfl

/-- C7 fails on the code: `trim_copy` computes only
`find_last_not_of` + `substr(0, end + 1)`, so it removes trailing but
never leading whitespace; a name argument `" A"` is used downstream as
`" A"` (not `"A"`) and, since trimming did not change the value, no
`PARSE_WGNAME_SPACE` diagnostic is raised — contradicting the in-source
comment that spaces are trimmed "leading and trailing ...
unconditionally". -/
theorem C7_trim_keeps_leading_whitespace :
    trim_wgname " A" = (" A", false) ∧ trim_copy " A " = " A" ∧ " A" ≠ "A" := by
  refine ⟨?_, ?_, ?_⟩ <;> decide

theorem find?_filterNe {β : Type} (m : List (String × β)) (k w : String)
    (hwk : w ≠ k) :
    (m.filter (fun p => p.1 ≠ k)).find? (fun p => p.1 == w) =
      m.find? (fun p => p.1 == w) := by
  induction m with
  | nil => rfl
  | cons a rest ih =>
      by_cases hak : a.1 = k
      · have hw : (a.1 == w) = false := by
          rw [beq_eq_false_iff_ne, hak]
          exact fun h => hwk h.symm
        rw [List.filter_cons, if_neg (by simp [hak]), ih,
          List.find?_cons_of_neg _ (by simp [hw])]
      · rw [List.filter_cons, if_pos (by simp [hak])]
        by_cases haw : a.1 = w
        · rw [List.find?_cons_of_pos _ (by simp [haw]),
            List.find?_cons_of_pos _ (by simp [haw])]
        · rw [List.find?_cons_of_neg _ (by simp [haw]),
            List.find?_cons_of_neg _ (by simp [haw]), ih]

theorem mapLookup_mapSet (m : List (String × Rat)) (k w : String) (v : Rat) :
    mapLookup (mapSet m k v) w = if w = k then some v else mapLookup m w := by
  unfold mapLookup mapSet
  by_cases hwk : w = k
  · rw [if_pos hwk, List.find?_cons_of_pos _ (by simp [hwk])]
    rfl
  · rw [if_neg hwk,
      List.find?_cons_of_neg _ (by simp; exact fun h => hwk h.symm),
      find?_filterNe m k w hwk]

theorem mapLookup_foldl_mapSet (ws : List String) (v : Rat)
    (m : List (String × Rat)) (w : String) :
    mapLookup (ws.foldl (fun m1 x => mapSet m1 x v) m) w =
      if ws.contains w then some v else mapLookup m w := by
  induction ws generalizing m with
  | nil => simp
  | cons x ws ih =>
      rw [List.foldl_cons, ih, mapLookup_mapSet]
      by_cases hx : w = x
      · subst hx
        simp [List.contains_cons]
      · have hxw : (x == w) = false := by
          rw [beq_eq_false_iff_ne]
          exact fun h => hx h.symm
        simp [List.contains_cons, hxw, hx]

theorem handleWPIMULT_nil (ρ : String → List String) (s : WPIMULTState) :
    handleWPIMULT ρ [] s = s := rfl

theorem handleWPIMULT_cons (ρ : String → List String) (r : WPIMULTRecord)
    (rest : List WPIMULTRecord) (s : WPIMULTState) :
    handleWPIMULT ρ (r :: rest) s =
      handleWPIMULT ρ rest (handleWPIMULTRecord ρ s r) := rfl

theorem handleWPIMULT_globalFactor (ρ : String → List String)
    (recs : List WPIMULTRecord) (s : WPIMULTState) (w : String) :
    mapLookup (handleWPIMULT ρ recs s).globalFactor w =
      (((recs.filter (fun r => defaultConCompRec r)).reverse.find?
          (fun r => (ρ r.well).contains w)).map (fun r => r.wellpi)).or
        (mapLookup s.globalFactor w) := by
  induction recs generalizing s with
  | nil => simp [handleWPIMULT_nil]
  | cons r rest ih =>
      rw [handleWPIMULT_cons, ih]
      by_cases hd : defaultConCompRec r = true
      · rw [List.filter_cons, if_pos (by simp [hd]), List.reverse_cons,
          List.find?_append,
          show (handleWPIMULTRecord ρ s r).globalFactor =
            (ρ r.well).foldl (fun m1 x => mapSet m1 x r.wellpi) s.globalFactor
            from by simp [handleWPIMULTRecord, hd],
          mapLookup_foldl_mapSet]
        cases hF : (rest.filter (fun r1 => defaultConCompRec r1)).reverse.find?
            (fun r1 => (ρ r1.well).contains w) with
        | some rr => simp [Option.or]
        | none =>
            by_cases hc : w ∈ ρ r.well
            · simp [Option.or, List.find?, hc]
            · simp [Option.or, List.find?, hc]
      · rw [List.filter_cons, if_neg (by simp [hd]),
          show (handleWPIMULTRecord ρ s r).globalFactor = s.globalFactor
            from by simp [handleWPIMULTRecord, hd]]

theorem handleWPIMULT_applied (ρ : String → List String)
    (recs : List WPIMULTRecord) (s : WPIMULTState) :
    (handleWPIMULT ρ recs s).applied =
      s.applied ++ (recs.filter (fun r => !defaultConCompRec r)).flatMap
        (fun r => (ρ r.well).map (fun w => (w, r))) := by
  induction recs generalizing s with
  | nil => simp [handleWPIMULT_nil]
  | cons r rest ih =>
      rw [handleWPIMULT_cons, ih]
      by_cases hd : defaultConCompRec r = true
      · rw [List.filter_cons, if_neg (by simp [hd])]
        congr 1
        simp [handleWPIMULTRecord, hd]
      · rw [List.filter_cons, if_pos (by simp [hd]), List.flatMap_cons,
          show (handleWPIMULTRecord ρ s r).applied =
            s.applied ++ (ρ r.well).map (fun w => (w, r))
            from by simp [handleWPIMULTRecord, hd],
          List.append_assoc]

theorem processWPIMULTStep_eq_flatten (ρ : String → List String)
    (kws : List (List WPIMULTRecord)) (s : WPIMULTState) :
    processWPIMULTStep ρ kws s = handleWPIMULT ρ kws.flatten s := by
  induction kws generalizing s with
  | nil => rfl
  | cons recs rest ih =>
      show processWPIMULTStep ρ rest (handleWPIMULT ρ recs s) = _
      rw [ih, List.flatten_cons]
      unfold handleWPIMULT
      rw [List.foldl_append]

/-- C3: across all WPIMULT keywords of one report step, a record with
fully-defaulted connection/completion items only writes its multiplier
into the side-channel map (so for every well the deferred multiplier that
the end-of-step application sees is the one of the *last* such record
resolving to that well, across keyword boundaries), while the sequence of
immediate per-record applications is exactly that of the records with
explicit connection/completion addressing, in processing order,
unaffected by the deferred records around them. -/
theorem C3_wpimult_deferred_vs_immediate (ρ : String → List String)
    (kws : List (List WPIMULTRecord)) (s0 : WPIMULTState) :
    (∀ w, mapLookup (processWPIMULTStep ρ kws s0).globalFactor w =
        (((kws.flatten.filter (fun r => defaultConCompRec r)).reverse.find?
            (fun r => (ρ r.well).contains w)).map (fun r => r.wellpi)).or
          (mapLookup s0.globalFactor w)) ∧
    (processWPIMULTStep ρ kws s0).applied =
      s0.applied ++ (kws.flatten.filter (fun r => !defaultConCompRec r)).flatMap
        (fun r => (ρ r.well).map (fun w => (w, r))) := by
  rw [processWPIMULTStep_eq_flatten]
  exact ⟨fun w => handleWPIMULT_globalFactor ρ kws.flatten s0 w,
    handleWPIMULT_applied ρ kws.flatten s0⟩

/-- C10: a connection/completion item counts as defaulted when it carries
the default-applied flag or holds a negative value; a record all of whose
items from the third onward are such is routed to the deferred
side-channel path (no immediate application), and a record is applied
immediately exactly when at least one of those items is explicit with a
non-negative value (in which case the side-channel map is untouched). -/
theorem C10_wpimult_default_predicate (ρ : String → List String)
    (r : WPIMULTRecord) (s : WPIMULTState) :
    (defaultConCompRec r = true ↔
      ∀ it ∈ r.conComp, it.defaultApplied = true ∨ it.value < 0) ∧
    (defaultConCompRec r = false ↔
      ∃ it ∈ r.conComp, it.defaultApplied = false ∧ 0 ≤ it.value) ∧
    (handleWPIMULTRecord ρ s r).applied =
      (if defaultConCompRec r then s.applied
       else s.applied ++ (ρ r.well).map (fun w => (w, r))) ∧
    (handleWPIMULTRecord ρ s r).globalFactor =
      (if defaultConCompRec r then
        (ρ r.well).foldl (fun m w => mapSet m w r.wellpi) s.globalFactor
       else s.globalFactor) := by
  refine ⟨?_, ?_, ?_, ?_⟩
  · simp [defaultConCompRec, List.all_eq_true]
  · rw [← Bool.not_eq_true]
    simp only [defaultConCompRec, List.all_eq_true, not_forall]
    constructor
    · rintro ⟨it, hit, hne⟩
      refine ⟨it, hit, ?_⟩
      simp only [Bool.or_eq_true, decide_eq_true_eq, not_or] at hne
      exact ⟨Bool.of_not_eq_true hne.1, le_of_not_lt hne.2⟩
    · rintro ⟨it, hit, hda, hge⟩
      exact ⟨it, hit, by simp [hda, not_lt.mpr hge]⟩
  · by_cases hd : defaultConCompRec r = true <;>
      simp [handleWPIMULTRecord, hd]
  · by_cases hd : defaultConCompRec r = true <;>
      simp [handleWPIMULTRecord, hd]

theorem find?_mapModify {β : Type} (lists : List (String × β))
    (n k : String) (f : β → β) :
    ((lists.map (fun p => if p.1 = n then (p.1, f p.2) else p)).find?
        (fun p => p.1 == k)) =
      (lists.find? (fun p => p.1 == k)).map
        (fun p => if p.1 = n then (p.1, f p.2) else p) := by
  induction lists with
  | nil => rfl
  | cons a rest ih =>
      have hkey : (if a.1 = n then (a.1, f a.2) else a).1 = a.1 := by
        split <;> rfl
      by_cases hak : a.1 = k
      · rw [List.map_cons,
          List.find?_cons_of_pos _ (by rw [hkey]; simp [hak]),
          List.find?_cons_of_pos _ (by simp [hak])]
        rfl
      · rw [List.map_cons,
          List.find?_cons_of_neg _ (by rw [hkey]; simp [hak]),
          List.find?_cons_of_neg _ (by simp [hak]), ih]

theorem find?_mapValues {β : Type} (lists : List (String × β))
    (k : String) (f : β → β) :
    ((lists.map (fun p => (p.1, f p.2))).find? (fun p => p.1 == k)) =
      (lists.find? (fun p => p.1 == k)).map (fun p => (p.1, f p.2)) := by
  induction lists with
  | nil => rfl
  | cons a rest ih =>
      by_cases hak : a.1 = k
      · rw [List.map_cons, List.find?_cons_of_pos _ (by simp [hak]),
          List.find?_cons_of_pos _ (by simp [hak])]
        rfl
      · rw [List.map_cons, List.find?_cons_of_neg _ (by simp [hak]),
          List.find?_cons_of_neg _ (by simp [hak]), ih]

theorem getList_newList_self (m : WListManager) (n : String)
    (ws : List String) : (m.newList n ws).getList n = some ⟨ws⟩ := by
  unfold WListManager.newList WListManager.getList
  rw [List.find?_cons_of_pos _ (by simp)]
  rfl

theorem getList_newList_ne (m : WListManager) (n k : String)
    (ws : List String) (h : k ≠ n) :
    (m.newList n ws).getList k = m.getList k := by
  unfold WListManager.newList WListManager.getList
  rw [List.find?_cons_of_neg _ (by simp; exact fun h1 => h h1.symm),
    find?_filterNe m.wlists n k h]

theorem getList_addWListWell (m : WListManager) (w n k : String) :
    (m.addWListWell w n).getList k =
      if k = n then (m.getList k).map (fun l => l.add w) else m.getList k := by
  unfold WListManager.addWListWell WListManager.getList
  dsimp only
  rw [find?_mapModify m.wlists n k (fun l => l.add w)]
  cases hfind : m.wlists.find? (fun p => p.1 == k) with
  | none => simp
  | some p =>
      have hp : p.1 = k := by simpa using List.find?_some hfind
      by_cases hk : k = n
      · simp [hp, hk]
      · simp [hp, hk]

theorem getList_delWListWell (m : WListManager) (w n k : String) :
    (m.delWListWell w n).getList k =
      if k = n then (m.getList k).map (fun l => l.del w) else m.getList k := by
  unfold WListManager.delWListWell WListManager.getList
  dsimp only
  rw [find?_mapModify m.wlists n k (fun l => l.del w)]
  cases hfind : m.wlists.find? (fun p => p.1 == k) with
  | none => simp
  | some p =>
      have hp : p.1 = k := by simpa using List.find?_some hfind
      by_cases hk : k = n
      · simp [hp, hk]
      · simp [hp, hk]

theorem getList_delWell (m : WListManager) (w k : String) :
    (m.delWell w).getList k = (m.getList k).map (fun l => l.del w) := by
  unfold WListManager.delWell WListManager.getList
  dsimp only
  rw [find?_mapValues m.wlists k (fun l => l.del w)]
  cases m.wlists.find? (fun p => p.1 == k) <;> rfl

theorem WList.has_add_self (l : WList) (w : String) :
    (l.add w).has w = true := by
  unfold WList.add WList.has
  by_cases h : l.well_list.count w = 0
  · simp [h, List.count_append]
  · simp [h, Nat.pos_of_ne_zero h]

theorem WList.has_del_self (l : WList) (w : String) :
    (l.del w).has w = false := by
  unfold WList.del WList.has
  simp only [decide_eq_false_iff_not, not_lt, Nat.le_zero, List.count_eq_zero]
  intro hmem
  have := (List.mem_filter.mp hmem).2
  simp at this

theorem handleWLISTRecord_NEW (ρ : String → List String) (wlm : WListManager)
    (n : String) (hn : n.data.head? = some '*') :
    handleWLISTRecord ρ wlm ⟨n, "NEW", []⟩ = .ok (wlm.newList n []) := by
  have hsub : strContains legal_actions "NEW" = true := by decide
  simp [handleWLISTRecord, resolveWellArgs, hsub, hn,
    WListManager.hasList, getList_newList_self]

theorem handleWLISTRecord_ADD (ρ : String → List String) (wlm : WListManager)
    (n w : String) (hρ : ρ w = [w]) (hn : n.data.head? = some '*')
    (hhas : wlm.hasList n = true) :
    handleWLISTRecord ρ wlm ⟨n, "ADD", [w]⟩ = .ok (wlm.addWListWell w n) := by
  have hsub : strContains legal_actions "ADD" = true := by decide
  simp [handleWLISTRecord, resolveWellArgs, hsub, hρ, hn, hhas]

theorem handleWLISTRecord_DEL (ρ : String → List String) (wlm : WListManager)
    (n w : String) (hρ : ρ w = [w]) (hn : n.data.head? = some '*')
    (hhas : wlm.hasList n = true) :
    handleWLISTRecord ρ wlm ⟨n, "DEL", [w]⟩ = .ok (wlm.delWListWell w n) := by
  have hsub : strContains legal_actions "DEL" = true := by decide
  simp [handleWLISTRecord, resolveWellArgs, hsub, hρ, hn, hhas]

theorem handleWLISTRecord_MOV (ρ : String → List String) (wlm : WListManager)
    (n w : String) (hρ : ρ w = [w]) (hn : n.data.head? = some '*')
    (hhas : wlm.hasList n = true) :
    handleWLISTRecord ρ wlm ⟨n, "MOV", [w]⟩ =
      .ok ((wlm.delWell w).addWListWell w n) := by
  have hsub : strContains legal_actions "MOV" = true := by decide
  simp [handleWLISTRecord, resolveWellArgs, hsub, hρ, hn, hhas]

/-- C6: through the WLIST handler, `NEW` then `ADD(w1)`, `ADD(w2)`, then
`DEL(w1)` leaves the named list holding exactly `{w2}`; and `MOV(w2)`
into a second list `M` removes `w2` from every list that previously held
it and adds it only to `M`, making `M` the unique list containing
`w2`. -/
theorem C6_wlist_round_trip_and_mov (ρ : String → List String)
    (L M w1 w2 : String) (wlmA wlmB : WListManager)
    (hρ1 : ρ w1 = [w1]) (hρ2 : ρ w2 = [w2])
    (hL : L.data.head? = some '*') (hM : M.data.head? = some '*')
    (h12 : w1 ≠ w2) (hBM : wlmB.hasList M = true) :
    (∃ wlmX, handleWLIST ρ wlmA
        [⟨L, "NEW", []⟩, ⟨L, "ADD", [w1]⟩, ⟨L, "ADD", [w2]⟩, ⟨L, "DEL", [w1]⟩] =
          .ok wlmX ∧ wlmX.getList L = some ⟨[w2]⟩) ∧
    (∃ wlmY, handleWLIST ρ wlmB [⟨M, "MOV", [w2]⟩] = .ok wlmY ∧
        (∃ lM, wlmY.getList M = some lM ∧ lM.has w2 = true) ∧
        (∀ p ∈ wlmY.wlists, p.1 ≠ M → p.2.has w2 = false)) := by
  constructor
  · have h1 := handleWLISTRecord_NEW ρ wlmA L hL
    have g1 : (wlmA.newList L []).getList L = some ⟨[]⟩ :=
      getList_newList_self wlmA L []
    have has1 : (wlmA.newList L []).hasList L = true := by
      simp [WListManager.hasList, g1]
    have h2 := handleWLISTRecord_ADD ρ (wlmA.newList L []) L w1 hρ1 hL has1
    have g2 : ((wlmA.newList L []).addWListWell w1 L).getList L =
        some ⟨[w1]⟩ := by
      rw [getList_addWListWell, if_pos rfl, g1]
      simp [WList.add]
    have has2 : ((wlmA.newList L []).addWListWell w1 L).hasList L = true := by
      simp [WListManager.hasList, g2]
    have h3 := handleWLISTRecord_ADD ρ
      ((wlmA.newList L []).addWListWell w1 L) L w2 hρ2 hL has2
    have g3 : (((wlmA.newList L []).addWListWell w1 L).addWListWell w2 L).getList L =
        some ⟨[w1, w2]⟩ := by
      rw [getList_addWListWell, if_pos rfl, g2]
      have : ([w1].count w2) = 0 := by
        simp [List.count_cons]
        exact h12
      simp [WList.add, this]
    have has3 : (((wlmA.newList L []).addWListWell w1 L).addWListWell w2 L).hasList L
        = true := by
      simp [WListManager.hasList, g3]
    have h4 := handleWLISTRecord_DEL ρ
      (((wlmA.newList L []).addWListWell w1 L).addWListWell w2 L) L w1 hρ1 hL has3
    have g4 : ((((wlmA.newList L []).addWListWell w1 L).addWListWell w2 L).delWListWell w1 L).getList L =
        some ⟨[w2]⟩ := by
      rw [getList_delWListWell, if_pos rfl, g3]
      have hne : w2 ≠ w1 := fun h => h12 h.symm
      simp [WList.del, hne]
    refine ⟨_, ?_, g4⟩
    simp [handleWLIST, h1, h2, h3, h4]
  · have h1 := handleWLISTRecord_MOV ρ wlmB M w2 hρ2 hM hBM
    obtain ⟨lB, hlB⟩ : ∃ lB, wlmB.getList M = some lB := by
      have := hBM
      unfold WListManager.hasList at this
      exact Option.isSome_iff_exists.mp this
    refine ⟨(wlmB.delWell w2).addWListWell w2 M, by simp [handleWLIST, h1], ?_, ?_⟩
    · refine ⟨(lB.del w2).add w2, ?_, WList.has_add_self _ _⟩
      rw [getList_addWListWell, if_pos rfl, getList_delWell, hlB]
      rfl
    · intro p hp hpM
      unfold WListManager.addWListWell WListManager.delWell at hp
      simp only [List.map_map, List.mem_map, Function.comp] at hp
      obtain ⟨q, hq, hpq⟩ := hp
      by_cases hqM : q.1 = M
      · rw [← hpq] at hpM
        simp [hqM] at hpM
      · rw [← hpq]
        simp only [hqM, if_false]
        exact WList.has_del_self q.2 w2

/-- C9: the WLIST handler rejects an action string, with the
invalid-argument error naming it, exactly when it is not a substring of
`"NEW:ADD:DEL:MOV"` (the check is `legal_actions.find(action) == npos`),
and every accepted action other than the exact strings `"NEW"`, `"DEL"`
and `"MOV"` — e.g. `"ADD"`, but also fragments like `"EW"` — is processed
exactly like `"ADD"`. -/
theorem C9_wlist_action_substring (ρ : String → List String)
    (wlm : WListManager) (n a : String) (args : List String) :
    (strContains legal_actions a = false →
        handleWLISTRecord ρ wlm ⟨n, a, args⟩ =
          .error (.logicError ("The action:" ++ a ++ " is not recognized."))) ∧
    (strContains legal_actions a = true → a ≠ "NEW" → a ≠ "DEL" → a ≠ "MOV" →
        handleWLISTRecord ρ wlm ⟨n, a, args⟩ =
          handleWLISTRecord ρ wlm ⟨n, "ADD", args⟩) := by
  constructor
  · intro h
    simp [handleWLISTRecord, h]
  · intro hsub hN hD hM
    have hsubA : strContains legal_actions "ADD" = true := by decide
    simp only [handleWLISTRecord, hsub, hsubA]
    cases resolveWellArgs ρ args with
    | error e => rfl
    | ok wells => simp [hN, hD, hM]

theorem C6_wlist_round_trip_and_mov_witness :
    (∃ wlmX, handleWLIST exampleResolver ⟨[]⟩
        [⟨"*L", "NEW", []⟩, ⟨"*L", "ADD", ["W1"]⟩, ⟨"*L", "ADD", ["W2"]⟩,
          ⟨"*L", "DEL", ["W1"]⟩] =
          .ok wlmX ∧ wlmX.getList "*L" = some ⟨["W2"]⟩) ∧
    (∃ wlmY, handleWLIST exampleResolver ⟨[("*M", ⟨[]⟩), ("*L", ⟨["W2"]⟩)]⟩
        [⟨"*M", "MOV", ["W2"]⟩] = .ok wlmY ∧
        (∃ lM, wlmY.getList "*M" = some lM ∧ lM.has "W2" = true) ∧
        (∀ p ∈ wlmY.wlists, p.1 ≠ "*M" → p.2.has "W2" = false)) :=
  C6_wlist_round_trip_and_mov exampleResolver "*L" "*M" "W1" "W2"
    ⟨[]⟩ ⟨[("*M", ⟨[]⟩), ("*L", ⟨["W2"]⟩)]⟩
    (by decide) (by decide) (by decide) (by decide) (by decide) (by decide)

theorem updateInjection_result (w : Well) (p : WellInjectionProperties) :
    (w.updateInjection p).1 =
      { (if w.producer then w.switchToInjector else w) with injection := p } := by
  simp only [Well.updateInjection]
  generalize (if w.producer then w.switchToInjector else w) = w1
  by_cases h : w1.injection = p
  · rw [if_pos h]
    cases w1
    simp_all
  · rw [if_neg h]

theorem updateProduction_result (w : Well) (p : WellProductionProperties) :
    (w.updateProduction p).1 =
      { (if w.producer then w else w.switchToProducer) with production := p } := by
  simp only [Well.updateProduction]
  generalize (if w.producer then w else w.switchToProducer) = w1
  by_cases h : w1.production = p
  · rw [if_pos h]
    cases w1
    simp_all
  · rw [if_neg h]

theorem updatePrediction_result (w : Well) (b : Bool) :
    (w.updatePrediction b).1 = { w with predictionMode := b } := by
  unfold Well.updatePrediction
  by_cases h : w.predictionMode = b
  · rw [if_pos h]
    cases w
    simp_all
  · rw [if_neg h]

theorem updateHasProduced_result (w : Well) :
    (w.updateHasProduced).1 = { w with hasProduced := true } := by
  unfold Well.updateHasProduced
  by_cases h : w.hasProduced
  · rw [if_pos h]
    cases w
    simp_all
  · rw [if_neg h]

theorem updateHasInjected_result (w : Well) :
    (w.updateHasInjected).1 = { w with hasInjected := true } := by
  unfold Well.updateHasInjected
  by_cases h : w.hasInjected
  · rw [if_pos h]
    cases w
    simp_all
  · rw [if_neg h]

theorem updateInjection_flag_of_producer (w : Well)
    (p : WellInjectionProperties) (h : w.producer = true) :
    (w.updateInjection p).2 = true := by
  by_cases h2 : w.switchToInjector.injection = p <;>
    simp [Well.updateInjection, h, h2]

theorem updateProduction_flag_of_injector (w : Well)
    (p : WellProductionProperties) (h : w.producer = false) :
    (w.updateProduction p).2 = true := by
  by_cases h2 : w.switchToProducer.production = p <;>
    simp [Well.updateProduction, h, h2]

theorem getWell_setWell (s : SchedState) (w : Well) (k : String) :
    (s.setWell w).getWell k =
      if k = w.name then (s.getWell k).map (fun _ => w) else s.getWell k := by
  unfold SchedState.setWell SchedState.getWell
  dsimp only
  rw [find?_mapModify s.wells w.name k (fun _ => w)]
  cases hfind : s.wells.find? (fun p => p.1 == k) with
  | none => simp
  | some p =>
      have hp : p.1 = k := by simpa using List.find?_some hfind
      by_cases hk : k = w.name
      · simp [hp, hk]
      · simp [hp, hk]

theorem getWell_addStepEvent (s : SchedState) (e : ScheduleEvent)
    (n : String) : (s.addStepEvent e).getWell n = s.getWell n := rfl

theorem getWell_addWGEvent (s : SchedState) (m : String) (e : ScheduleEvent)
    (n : String) : (s.addWGEvent m e).getWell n = s.getWell n := rfl

theorem getWell_addNote (s : SchedState) (m n : String) :
    (s.addNote m).getWell n = s.getWell n := rfl

theorem getWell_affectedWell (s : SchedState) (m n : String) :
    (s.affectedWell m).getWell n = s.getWell n := rfl

theorem notes_addStepEvent (s : SchedState) (e : ScheduleEvent) :
    (s.addStepEvent e).notes = s.notes := rfl

theorem notes_addWGEvent (s : SchedState) (m : String) (e : ScheduleEvent) :
    (s.addWGEvent m e).notes = s.notes := rfl

theorem notes_setWell (s : SchedState) (w : Well) :
    (s.setWell w).notes = s.notes := rfl

theorem notes_affectedWell (s : SchedState) (m : String) :
    (s.affectedWell m).notes = s.notes := rfl

theorem notes_addNote (s : SchedState) (m : String) :
    (s.addNote m).notes = s.notes ++ [m] := rfl

theorem wellgroupEvents_addStepEvent (s : SchedState) (e : ScheduleEvent) :
    (s.addStepEvent e).wellgroupEvents = s.wellgroupEvents := rfl

theorem wellgroupEvents_setWell (s : SchedState) (w : Well) :
    (s.setWell w).wellgroupEvents = s.wellgroupEvents := rfl

theorem wellgroupEvents_addNote (s : SchedState) (m : String) :
    (s.addNote m).wellgroupEvents = s.wellgroupEvents := rfl

theorem wellgroupEvents_affectedWell (s : SchedState) (m : String) :
    (s.affectedWell m).wellgroupEvents = s.wellgroupEvents := rfl

theorem wellgroupEvents_addWGEvent (s : SchedState) (m : String)
    (e : ScheduleEvent) :
    (s.addWGEvent m e).wellgroupEvents = s.wellgroupEvents ++ [(m, e)] := rfl

theorem notes_updateWellStatus (s : SchedState) (n : String)
    (st : WellStatus) : (updateWellStatus s n st).1.notes = s.notes := by
  unfold updateWellStatus
  cases s.getWell n with
  | none => rfl
  | some w => by_cases h : w.status = st <;> simp [h, notes_setWell]

theorem wellgroupEvents_updateWellStatus (s : SchedState) (n : String)
    (st : WellStatus) :
    (updateWellStatus s n st).1.wellgroupEvents = s.wellgroupEvents := by
  unfold updateWellStatus
  cases s.getWell n with
  | none => rfl
  | some w => by_cases h : w.status = st <;> simp [h, wellgroupEvents_setWell]

theorem getWell_updateUDQActiveInj (s : SchedState) (m : String)
    (p : WellInjectionProperties) (n : String) :
    (updateUDQActiveInj s m p).getWell n = s.getWell n := by
  unfold updateUDQActiveInj
  split <;> rfl

theorem notes_updateUDQActiveInj (s : SchedState) (m : String)
    (p : WellInjectionProperties) :
    (updateUDQActiveInj s m p).notes = s.notes := by
  unfold updateUDQActiveInj
  split <;> rfl

theorem wellgroupEvents_updateUDQActiveInj (s : SchedState) (m : String)
    (p : WellInjectionProperties) :
    (updateUDQActiveInj s m p).wellgroupEvents = s.wellgroupEvents := by
  unfold updateUDQActiveInj
  split <;> rfl

theorem getWell_updateUDQActiveProd (s : SchedState) (m : String)
    (p : WellProductionProperties) (n : String) :
    (updateUDQActiveProd s m p).getWell n = s.getWell n := by
  unfold updateUDQActiveProd
  split <;> rfl

theorem notes_updateUDQActiveProd (s : SchedState) (m : String)
    (p : WellProductionProperties) :
    (updateUDQActiveProd s m p).notes = s.notes := by
  unfold updateUDQActiveProd
  split <;> rfl

theorem wellgroupEvents_updateUDQActiveProd (s : SchedState) (m : String)
    (p : WellProductionProperties) :
    (updateUDQActiveProd s m p).wellgroupEvents = s.wellgroupEvents := by
  unfold updateUDQActiveProd
  split <;> rfl

theorem updateWellStatus_found (s : SchedState) (n : String)
    (st : WellStatus) (w : Well) (hw : s.getWell n = some w)
    (hname : w.name = n) :
    (updateWellStatus s n st).1.getWell n =
      some (if w.status = st then w else { w with status := st }) := by
  unfold updateWellStatus
  rw [hw]
  by_cases h : w.status = st
  · simp [h, hw]
  · simp only [if_neg h]
    rw [getWell_setWell]
    simp [hname, hw]

theorem updateWellStatus_status_after (s : SchedState) (n : String)
    (st : WellStatus) (w : Well) (hw : s.getWell n = some w)
    (hname : w.name = n) :
    ∃ w1, (updateWellStatus s n st).1.getWell n = some w1 ∧
      w1.name = n ∧ w1.status = st ∧ w1.producer = w.producer ∧
      w1.allowCrossFlow = w.allowCrossFlow ∧
      w1.availableForGroupControl = w.availableForGroupControl ∧
      w1.injection = w.injection ∧ w1.production = w.production := by
  refine ⟨_, updateWellStatus_found s n st w hw hname, ?_⟩
  by_cases h : w.status = st <;> simp [h, hname]

theorem shutNoteStep (s : SchedState) (well_name m : String) (wc : Well)
    (hw : s.getWell well_name = some wc) (hname : wc.name = well_name) :
    (∃ w1, ((updateWellStatus (s.addNote m) well_name .SHUT).1).getWell
          well_name = some w1 ∧
        w1.name = well_name ∧ w1.status = .SHUT ∧ w1.producer = wc.producer ∧
        w1.injection = wc.injection ∧ w1.production = wc.production) ∧
    ((updateWellStatus (s.addNote m) well_name .SHUT).1).notes =
      s.notes ++ [m] := by
  constructor
  · obtain ⟨w1, hg, hn, hst, hpr, _, _, hinj, hprod⟩ :=
      updateWellStatus_status_after (s.addNote m) well_name .SHUT wc
        (by rw [getWell_addNote]; exact hw) hname
    exact ⟨w1, hg, hn, hst, hpr, hinj, hprod⟩
  · rw [notes_updateWellStatus, notes_addNote]

theorem wconinjeEventsPhase_getWell (well_name prev : String)
    (inj : WellInjectionProperties) (sw upd : Bool) (well2c : Well)
    (s : SchedState) (k : String) :
    (wconinjeEventsPhase well_name prev inj sw upd well2c s).getWell k =
      if upd then
        (if k = well2c.name then (s.getWell k).map (fun _ => well2c)
         else s.getWell k)
      else s.getWell k := by
  unfold wconinjeEventsPhase
  by_cases hsw : sw = true <;> by_cases hu : upd = true <;>
    by_cases hp : prev ≠ inj.injectorType <;>
      simp [hsw, hu, hp, getWell_setWell, getWell_addStepEvent,
        getWell_addWGEvent]

theorem wconinjeEventsPhase_notes (well_name prev : String)
    (inj : WellInjectionProperties) (sw upd : Bool) (well2c : Well)
    (s : SchedState) :
    (wconinjeEventsPhase well_name prev inj sw upd well2c s).notes =
      s.notes := by
  unfold wconinjeEventsPhase
  by_cases hsw : sw = true <;> by_cases hu : upd = true <;>
    by_cases hp : prev ≠ inj.injectorType <;>
      simp [hsw, hu, hp, notes_setWell, notes_addStepEvent, notes_addWGEvent]

theorem wconinjeEventsPhase_switch_event (well_name prev : String)
    (inj : WellInjectionProperties) (upd : Bool) (well2c : Well)
    (s : SchedState) :
    (well_name, ScheduleEvent.WELL_SWITCHED_INJECTOR_PRODUCER) ∈
      (wconinjeEventsPhase well_name prev inj true upd well2c s).wellgroupEvents := by
  unfold wconinjeEventsPhase
  by_cases hu : upd = true <;>
    by_cases hp : prev ≠ inj.injectorType <;>
      simp [hu, hp, wellgroupEvents_setWell, wellgroupEvents_addStepEvent,
        wellgroupEvents_addWGEvent]

theorem wconinjeCrossflowRATE_shut (well_name : String)
    (inj : WellInjectionProperties) (s : SchedState) (wc : Well)
    (hw : s.getWell well_name = some wc) (hname : wc.name = well_name)
    (hc : inj.hasInjectionControl .RATE = true)
    (hz : inj.surfaceInjectionRate = .num 0) :
    ∃ w1, (wconinjeCrossflowRATE well_name inj s).getWell well_name =
        some w1 ∧ w1.name = well_name ∧ w1.status = .SHUT ∧
      w1.producer = wc.producer ∧ w1.injection = wc.injection ∧
      w1.production = wc.production ∧
      (wconinjeCrossflowRATE well_name inj s).notes =
        s.notes ++ [noteCrossflowInjector well_name] := by
  have hb : (inj.surfaceInjectionRate.isDouble &&
      inj.hasInjectionControl .RATE &&
      inj.surfaceInjectionRate.zero) = true := by
    rw [hz]
    simp [UDAValue.isDouble, UDAValue.zero, hc]
  unfold wconinjeCrossflowRATE
  rw [if_pos hb]
  obtain ⟨⟨w1, hg, hn, hst, hpr, hinj, hprod⟩, hnotes⟩ :=
    shutNoteStep s well_name (noteCrossflowInjector well_name) wc hw hname
  exact ⟨w1, hg, hn, hst, hpr, hinj, hprod, hnotes⟩

theorem wconinjeCrossflowRESV_shut (well_name : String)
    (inj : WellInjectionProperties) (s : SchedState) (wc : Well)
    (hw : s.getWell well_name = some wc) (hname : wc.name = well_name)
    (hc : inj.hasInjectionControl .RESV = true)
    (hz : inj.reservoirInjectionRate = .num 0) :
    ∃ w1, (wconinjeCrossflowRESV well_name inj s).getWell well_name =
        some w1 ∧ w1.name = well_name ∧ w1.status = .SHUT ∧
      w1.producer = wc.producer ∧ w1.injection = wc.injection ∧
      w1.production = wc.production ∧
      (wconinjeCrossflowRESV well_name inj s).notes =
        s.notes ++ [noteCrossflowInjector well_name] := by
  have hb : (inj.reservoirInjectionRate.isDouble &&
      inj.hasInjectionControl .RESV &&
      inj.reservoirInjectionRate.zero) = true := by
    rw [hz]
    simp [UDAValue.isDouble, UDAValue.zero, hc]
  unfold wconinjeCrossflowRESV
  rw [if_pos hb]
  obtain ⟨⟨w1, hg, hn, hst, hpr, hinj, hprod⟩, hnotes⟩ :=
    shutNoteStep s well_name (noteCrossflowInjector well_name) wc hw hname
  exact ⟨w1, hg, hn, hst, hpr, hinj, hprod, hnotes⟩

theorem wconinjeCrossflowRESV_general (well_name : String)
    (inj : WellInjectionProperties) (s : SchedState) (wc : Well)
    (hw : s.getWell well_name = some wc) (hname : wc.name = well_name) :
    ∃ w1, (wconinjeCrossflowRESV well_name inj s).getWell well_name =
        some w1 ∧ w1.name = well_name ∧
      (w1.status = wc.status ∨ w1.status = .SHUT) ∧
      w1.producer = wc.producer ∧ w1.injection = wc.injection ∧
      w1.production = wc.production ∧
      ∃ t, (wconinjeCrossflowRESV well_name inj s).notes = s.notes ++ t := by
  unfold wconinjeCrossflowRESV
  by_cases hb : (inj.reservoirInjectionRate.isDouble &&
      inj.hasInjectionControl .RESV &&
      inj.reservoirInjectionRate.zero) = true
  · rw [if_pos hb]
    obtain ⟨⟨w1, hg, hn, hst, hpr, hinj, hprod⟩, hnotes⟩ :=
      shutNoteStep s well_name (noteCrossflowInjector well_name) wc hw hname
    exact ⟨w1, hg, hn, Or.inr hst, hpr, hinj, hprod,
      [noteCrossflowInjector well_name], hnotes⟩
  · rw [if_neg hb]
    exact ⟨wc, hw, hname, Or.inl rfl, rfl, rfl, rfl, [], by simp⟩

theorem wconinjeCrossflowRATE_general (well_name : String)
    (inj : WellInjectionProperties) (s : SchedState) (wc : Well)
    (hw : s.getWell well_name = some wc) (hname : wc.name = well_name) :
    ∃ w1, (wconinjeCrossflowRATE well_name inj s).getWell well_name =
        some w1 ∧ w1.name = well_name ∧
      (w1.status = wc.status ∨ w1.status = .SHUT) ∧
      w1.producer = wc.producer ∧ w1.injection = wc.injection ∧
      w1.production = wc.production ∧
      ∃ t, (wconinjeCrossflowRATE well_name inj s).notes = s.notes ++ t := by
  unfold wconinjeCrossflowRATE
  by_cases hb : (inj.surfaceInjectionRate.isDouble &&
      inj.hasInjectionControl .RATE &&
      inj.surfaceInjectionRate.zero) = true
  · rw [if_pos hb]
    obtain ⟨⟨w1, hg, hn, hst, hpr, hinj, hprod⟩, hnotes⟩ :=
      shutNoteStep s well_name (noteCrossflowInjector well_name) wc hw hname
    exact ⟨w1, hg, hn, Or.inr hst, hpr, hinj, hprod,
      [noteCrossflowInjector well_name], hnotes⟩
  · rw [if_neg hb]
    exact ⟨wc, hw, hname, Or.inl rfl, rfl, rfl, rfl, [], by simp⟩

theorem wconinjeCrossflowPhase_shut (well_name : String)
    (inj : WellInjectionProperties) (s : SchedState) (wc : Well)
    (hw : s.getWell well_name = some wc) (hname : wc.name = well_name)
    (hcase :
      (inj.hasInjectionControl .RATE = true ∧
        inj.surfaceInjectionRate = .num 0) ∨
      (inj.hasInjectionControl .RESV = true ∧
        inj.reservoirInjectionRate = .num 0)) :
    ∃ w1, (wconinjeCrossflowPhase well_name inj false s).getWell well_name =
        some w1 ∧ w1.name = well_name ∧ w1.status = .SHUT ∧
      w1.producer = wc.producer ∧ w1.injection = wc.injection ∧
      w1.production = wc.production ∧
      noteCrossflowInjector well_name ∈
        (wconinjeCrossflowPhase well_name inj false s).notes := by
  unfold wconinjeCrossflowPhase
  rw [if_pos rfl]
  rcases hcase with ⟨hc, hz⟩ | ⟨hc, hz⟩
  · obtain ⟨w1, hg1, hn1, hst1, hpr1, hinj1, hprod1, hnotes1⟩ :=
      wconinjeCrossflowRATE_shut well_name inj s wc hw hname hc hz
    obtain ⟨w2, hg2, hn2, hst2, hpr2, hinj2, hprod2, t, hnotes2⟩ :=
      wconinjeCrossflowRESV_general well_name inj _ w1 hg1 hn1
    refine ⟨w2, hg2, hn2, ?_, ?_, ?_, ?_, ?_⟩
    · rcases hst2 with h2 | h2
      · rw [h2, hst1]
      · exact h2
    · rw [hpr2, hpr1]
    · rw [hinj2, hinj1]
    · rw [hprod2, hprod1]
    · rw [hnotes2, hnotes1]
      simp
  · obtain ⟨w1, hg1, hn1, hst1, hpr1, hinj1, hprod1, t, hnotes1⟩ :=
      wconinjeCrossflowRATE_general well_name inj s wc hw hname
    obtain ⟨w2, hg2, hn2, hst2, hpr2, hinj2, hprod2, hnotes2⟩ :=
      wconinjeCrossflowRESV_shut well_name inj _ w1 hg1 hn1 hc hz
    refine ⟨w2, hg2, hn2, hst2, ?_, ?_, ?_, ?_⟩
    · rw [hpr2, hpr1]
    · rw [hinj2, hinj1]
    · rw [hprod2, hprod1]
    · rw [hnotes2]
      simp

theorem updchain_inj_allowCrossFlow (w : Well) (p : WellInjectionProperties)
    (b : Bool) :
    ((((w.updateInjection p).1.updatePrediction b).1).updateHasInjected).1.allowCrossFlow
      = w.allowCrossFlow := by
  rw [updateHasInjected_result, updatePrediction_result, updateInjection_result]
  by_cases hp : w.producer <;> simp [hp, Well.switchToInjector]

theorem updchain_inj_name (w : Well) (p : WellInjectionProperties)
    (b : Bool) :
    ((((w.updateInjection p).1.updatePrediction b).1).updateHasInjected).1.name
      = w.name := by
  rw [updateHasInjected_result, updatePrediction_result, updateInjection_result]
  by_cases hp : w.producer <;> simp [hp, Well.switchToInjector]

/-- C4: a well resolved by a WCONINJE record that disallows crossflow
and, after the record's injection properties are applied, holds a RATE
control with a numeric target of exactly zero, ends the record's
processing with status SHUT, a note in the log sink and no exception;
likewise under a RESV control with zero target. -/
theorem C4_wconinje_crossflow_autoshut (r : WCONINJERecord)
    (st : WellStatus) (s0 : SchedState) (well_name : String) (w : Well)
    (hw : s0.getWell well_name = some w) (hname : w.name = well_name)
    (hacf : w.allowCrossFlow = false)
    (hzero :
      ((w.injection.handleWCONINJE r
          w.availableForGroupControl).hasInjectionControl .RATE = true ∧
        (w.injection.handleWCONINJE r
          w.availableForGroupControl).surfaceInjectionRate = .num 0) ∨
      ((w.injection.handleWCONINJE r
          w.availableForGroupControl).hasInjectionControl .RESV = true ∧
        (w.injection.handleWCONINJE r
          w.availableForGroupControl).reservoirInjectionRate = .num 0)) :
    ∃ s1, handleWCONINJEwell r st s0 well_name = .ok s1 ∧
      (∃ w1, s1.getWell well_name = some w1 ∧ w1.status = .SHUT) ∧
      noteCrossflowInjector well_name ∈ s1.notes := by
  obtain ⟨wA, hgA, hnA, hstA, hprA, hacfA, havA, hinjA, hprodA⟩ :=
    updateWellStatus_status_after s0 well_name st w hw hname
  rw [← hinjA, ← havA] at hzero
  have hacfA2 : wA.allowCrossFlow = false := hacfA.trans hacf
  simp only [handleWCONINJEwell]
  rw [hgA]
  dsimp only
  set inj := wA.injection.handleWCONINJE r wA.availableForGroupControl
    with hinjdef
  set u3w :=
    ((wA.updateInjection inj).1.updatePrediction true).1.updateHasInjected.1
    with hu3
  set upd := (wA.updateInjection inj).2 ||
    ((wA.updateInjection inj).1.updatePrediction true).2 ||
    ((wA.updateInjection inj).1.updatePrediction true).1.updateHasInjected.2
    with hupd
  set sE := wconinjeEventsPhase well_name wA.injection.injectorType inj
    wA.producer upd u3w (updateWellStatus s0 well_name st).1 with hsE
  have hcf3 : u3w.allowCrossFlow = false := by
    rw [hu3]
    exact (updchain_inj_allowCrossFlow wA inj true).trans hacfA2
  have hn3 : u3w.name = well_name := by
    rw [hu3]
    exact (updchain_inj_name wA inj true).trans hnA
  have hEwell : ∃ wc, sE.getWell well_name = some wc ∧ wc.name = well_name := by
    rw [hsE, wconinjeEventsPhase_getWell]
    by_cases hu : upd = true
    · rw [if_pos hu, if_pos hn3.symm, hgA]
      exact ⟨u3w, rfl, hn3⟩
    · rw [if_neg hu, hgA]
      exact ⟨wA, rfl, hnA⟩
  obtain ⟨wc, hgE, hnE⟩ := hEwell
  obtain ⟨wF, hgF, hnF, hstF, _, _, _, hmem⟩ :=
    wconinjeCrossflowPhase_shut well_name inj sE wc hgE hnE hzero
  rw [← hcf3] at hgF hmem
  set sC := wconinjeCrossflowPhase well_name inj u3w.allowCrossFlow sE
    with hsC
  have hgetD :
      (if (sC.getWell well_name).map (fun w1 => w1.status) =
          some WellStatus.OPEN then
        sC.addWGEvent well_name .REQUEST_OPEN_WELL
      else sC).getWell well_name = sC.getWell well_name := by
    split
    · rw [getWell_addWGEvent]
    · rfl
  have hnotesD :
      (if (sC.getWell well_name).map (fun w1 => w1.status) =
          some WellStatus.OPEN then
        sC.addWGEvent well_name .REQUEST_OPEN_WELL
      else sC).notes = sC.notes := by
    split
    · rw [notes_addWGEvent]
    · rfl
  refine ⟨_, rfl, ⟨wF, ?_, hstF⟩, ?_⟩
  · rw [getWell_affectedWell, getWell_updateUDQActiveInj, hgetD]
    exact hgF
  · rw [notes_affectedWell, notes_updateUDQActiveInj, hnotesD]
    exact hmem

theorem C4_wconinje_crossflow_autoshut_witness :
    ∃ s1, handleWCONINJEwell exampleWCONINJERecord .OPEN exampleSchedState
        "W1" = .ok s1 ∧
      (∃ w1, s1.getWell "W1" = some w1 ∧ w1.status = .SHUT) ∧
      noteCrossflowInjector "W1" ∈ s1.notes :=
  C4_wconinje_crossflow_autoshut exampleWCONINJERecord .OPEN
    exampleSchedState "W1" exampleWell (by decide) (by decide) (by decide)
    (Or.inl ⟨by decide, by decide⟩)

theorem resetBHPLimit_idem (p : WellInjectionProperties) :
    p.resetBHPLimit.resetBHPLimit = p.resetBHPLimit := rfl

theorem updchain_inj_fields (wA : Well) (p : WellInjectionProperties)
    (b : Bool) (h : wA.producer = true) :
    ((((wA.updateInjection p).1.updatePrediction b).1).updateHasInjected).1 =
      { wA with
          producer := false
          production := wA.production.resetDefaultBHPLimit
          injection := p
          predictionMode := b
          hasInjected := true } := by
  rw [updateHasInjected_result, updatePrediction_result,
    updateInjection_result]
  simp [h, Well.switchToInjector]

theorem wconhist_chain (wA : Well) (pinj : WellInjectionProperties)
    (pprod : WellProductionProperties) (b : Bool) (h : wA.producer = false) :
    ((((((wA.updateInjection pinj).1).updateProduction pprod).1).updatePrediction b).1).updateHasProduced.1 =
      { wA with
          producer := true
          injection := pinj.resetBHPLimit
          production := pprod
          predictionMode := b
          hasProduced := true } := by
  rw [updateHasProduced_result, updatePrediction_result,
    updateProduction_result, updateInjection_result]
  simp [h, Well.switchToProducer, Well.switchToInjector,
    WellInjectionProperties.resetBHPLimit]

theorem wconprod_chain (wA : Well) (pprod : WellProductionProperties)
    (b : Bool) (h : wA.producer = false) :
    (((wA.updateProduction pprod).1.updatePrediction b).1).updateHasProduced.1 =
      { wA with
          producer := true
          injection := wA.injection.resetBHPLimit
          production := pprod
          predictionMode := b
          hasProduced := true } := by
  rw [updateHasProduced_result, updatePrediction_result,
    updateProduction_result]
  simp [h, Well.switchToProducer]

theorem wellgroupEvents_wconinjeCrossflowRATE (well_name : String)
    (inj : WellInjectionProperties) (s : SchedState) :
    (wconinjeCrossflowRATE well_name inj s).wellgroupEvents =
      s.wellgroupEvents := by
  unfold wconinjeCrossflowRATE
  split
  · rw [wellgroupEvents_updateWellStatus, wellgroupEvents_addNote]
  · rfl

theorem wellgroupEvents_wconinjeCrossflowRESV (well_name : String)
    (inj : WellInjectionProperties) (s : SchedState) :
    (wconinjeCrossflowRESV well_name inj s).wellgroupEvents =
      s.wellgroupEvents := by
  unfold wconinjeCrossflowRESV
  split
  · rw [wellgroupEvents_updateWellStatus, wellgroupEvents_addNote]
  · rfl

theorem wellgroupEvents_wconinjeCrossflowPhase (well_name : String)
    (inj : WellInjectionProperties) (acf : Bool) (s : SchedState) :
    (wconinjeCrossflowPhase well_name inj acf s).wellgroupEvents =
      s.wellgroupEvents := by
  unfold wconinjeCrossflowPhase
  split
  · rw [wellgroupEvents_wconinjeCrossflowRESV,
      wellgroupEvents_wconinjeCrossflowRATE]
  · rfl

theorem wconinjeCrossflowPhase_general (well_name : String)
    (inj : WellInjectionProperties) (acf : Bool) (s : SchedState) (wc : Well)
    (hw : s.getWell well_name = some wc) (hname : wc.name = well_name) :
    ∃ w1, (wconinjeCrossflowPhase well_name inj acf s).getWell well_name =
        some w1 ∧ w1.name = well_name ∧ w1.producer = wc.producer ∧
      w1.injection = wc.injection ∧ w1.production = wc.production := by
  unfold wconinjeCrossflowPhase
  by_cases ha : acf = false
  · rw [if_pos ha]
    obtain ⟨w1, hg1, hn1, _, hpr1, hinj1, hprod1, _⟩ :=
      wconinjeCrossflowRATE_general well_name inj s wc hw hname
    obtain ⟨w2, hg2, hn2, _, hpr2, hinj2, hprod2, _⟩ :=
      wconinjeCrossflowRESV_general well_name inj _ w1 hg1 hn1
    exact ⟨w2, hg2, hn2, hpr2.trans hpr1, hinj2.trans hinj1,
      hprod2.trans hprod1⟩
  · rw [if_neg ha]
    exact ⟨wc, hw, hname, rfl, rfl, rfl⟩

theorem wconinje_switch_helper (r : WCONINJERecord) (st : WellStatus)
    (s0 : SchedState) (well_name : String) (w : Well)
    (hw : s0.getWell well_name = some w) (hname : w.name = well_name)
    (hproducer : w.producer = true) :
    ∃ s1 wfin, handleWCONINJEwell r st s0 well_name = .ok s1 ∧
      s1.getWell well_name = some wfin ∧ wfin.producer = false ∧
      wfin.production = w.production.resetDefaultBHPLimit ∧
      wfin.injection =
        w.injection.handleWCONINJE r w.availableForGroupControl ∧
      (well_name, ScheduleEvent.WELL_SWITCHED_INJECTOR_PRODUCER) ∈
        s1.wellgroupEvents := by
  obtain ⟨wA, hgA, hnA, hstA, hprA, hacfA, havA, hinjA, hprodA⟩ :=
    updateWellStatus_status_after s0 well_name st w hw hname
  have hprA2 : wA.producer = true := hprA.trans hproducer
  simp only [handleWCONINJEwell]
  rw [hgA]
  dsimp only
  set inj := wA.injection.handleWCONINJE r wA.availableForGroupControl
    with hinjdef
  have hupd : ((wA.updateInjection inj).2 ||
      ((wA.updateInjection inj).1.updatePrediction true).2 ||
      ((wA.updateInjection inj).1.updatePrediction true).1.updateHasInjected.2)
        = true := by
    rw [updateInjection_flag_of_producer wA inj hprA2]
    simp
  rw [hupd, hprA2]
  set u3w :=
    ((wA.updateInjection inj).1.updatePrediction true).1.updateHasInjected.1
    with hu3
  have hu3fields : u3w = { wA with
      producer := false
      production := wA.production.resetDefaultBHPLimit
      injection := inj
      predictionMode := true
      hasInjected := true } := by
    rw [hu3]
    exact updchain_inj_fields wA inj true hprA2
  have hn3 : u3w.name = well_name := by
    rw [hu3fields]
    exact hnA
  set sE := wconinjeEventsPhase well_name wA.injection.injectorType inj
    true true u3w (updateWellStatus s0 well_name st).1 with hsE
  have hgE : sE.getWell well_name = some u3w := by
    rw [hsE, wconinjeEventsPhase_getWell, if_pos rfl, if_pos hn3.symm, hgA]
    rfl
  have hmemE : (well_name, ScheduleEvent.WELL_SWITCHED_INJECTOR_PRODUCER) ∈
      sE.wellgroupEvents := by
    rw [hsE]
    exact wconinjeEventsPhase_switch_event well_name
      wA.injection.injectorType inj true u3w _
  obtain ⟨wF, hgF, hnF, hprF, hinjF, hprodF⟩ :=
    wconinjeCrossflowPhase_general well_name inj u3w.allowCrossFlow sE u3w
      hgE hn3
  set sC := wconinjeCrossflowPhase well_name inj u3w.allowCrossFlow sE
    with hsC
  have hgetD :
      (if (sC.getWell well_name).map (fun w1 => w1.status) =
          some WellStatus.OPEN then
        sC.addWGEvent well_name .REQUEST_OPEN_WELL
      else sC).getWell well_name = sC.getWell well_name := by
    split
    · rw [getWell_addWGEvent]
    · rfl
  have hmemD : (well_name, ScheduleEvent.WELL_SWITCHED_INJECTOR_PRODUCER) ∈
      (if (sC.getWell well_name).map (fun w1 => w1.status) =
          some WellStatus.OPEN then
        sC.addWGEvent well_name .REQUEST_OPEN_WELL
      else sC).wellgroupEvents := by
    have hmemC : (well_name, ScheduleEvent.WELL_SWITCHED_INJECTOR_PRODUCER) ∈
        sC.wellgroupEvents := by
      rw [hsC, wellgroupEvents_wconinjeCrossflowPhase]
      exact hmemE
    split
    · rw [wellgroupEvents_addWGEvent]
      exact List.mem_append_left _ hmemC
    · exact hmemC
  refine ⟨_, wF, rfl, ?_, ?_, ?_, ?_, ?_⟩
  · rw [getWell_affectedWell, getWell_updateUDQActiveInj, hgetD]
    exact hgF
  · rw [hprF, hu3fields]
  · rw [hprodF, hu3fields]
    dsimp only
    rw [hprodA]
  · rw [hinjF, hu3fields]
    dsimp only
    rw [hinjdef, hinjA, havA]
  · rw [wellgroupEvents_affectedWell, wellgroupEvents_updateUDQActiveInj]
    exact hmemD

theorem wconinjh_switch_helper (r : WCONINJHRecord) (st : WellStatus)
    (s0 : SchedState) (well_name : String) (w : Well)
    (hw : s0.getWell well_name = some w) (hname : w.name = well_name)
    (hproducer : w.producer = true) :
    ∃ s1 wfin, handleWCONINJHwell r st s0 well_name = .ok s1 ∧
      s1.getWell well_name = some wfin ∧ wfin.producer = false ∧
      wfin.production = w.production.resetDefaultBHPLimit ∧
      wfin.injection = w.injection.handleWCONINJH r ∧
      (well_name, ScheduleEvent.WELL_SWITCHED_INJECTOR_PRODUCER) ∈
        s1.wellgroupEvents := by
  obtain ⟨wA, hgA, hnA, hstA, hprA, hacfA, havA, hinjA, hprodA⟩ :=
    updateWellStatus_status_after s0 well_name st w hw hname
  have hprA2 : wA.producer = true := hprA.trans hproducer
  simp only [handleWCONINJHwell]
  rw [hgA]
  dsimp only
  set inj := wA.injection.handleWCONINJH r with hinjdef
  have hupd : ((wA.updateInjection inj).2 ||
      ((wA.updateInjection inj).1.updatePrediction false).2 ||
      ((wA.updateInjection inj).1.updatePrediction false).1.updateHasInjected.2)
        = true := by
    rw [updateInjection_flag_of_producer wA inj hprA2]
    simp
  rw [hupd, hprA2]
  set u3w :=
    ((wA.updateInjection inj).1.updatePrediction false).1.updateHasInjected.1
    with hu3
  have hu3fields : u3w = { wA with
      producer := false
      production := wA.production.resetDefaultBHPLimit
      injection := inj
      predictionMode := false
      hasInjected := true } := by
    rw [hu3]
    exact updchain_inj_fields wA inj false hprA2
  have hn3 : u3w.name = well_name := by
    rw [hu3fields]
    exact hnA
  set sE := wconinjeEventsPhase well_name wA.injection.injectorType inj
    true true u3w (updateWellStatus s0 well_name st).1 with hsE
  have hgE : sE.getWell well_name = some u3w := by
    rw [hsE, wconinjeEventsPhase_getWell, if_pos rfl, if_pos hn3.symm, hgA]
    rfl
  have hmemE : (well_name, ScheduleEvent.WELL_SWITCHED_INJECTOR_PRODUCER) ∈
      sE.wellgroupEvents := by
    rw [hsE]
    exact wconinjeEventsPhase_switch_event well_name
      wA.injection.injectorType inj true u3w _
  have hFinal : ∃ w1,
      (if (u3w.allowCrossFlow = false && inj.surfaceInjectionRate.zero) =
          true then
        (updateWellStatus (sE.addNote (noteCrossflowInjector well_name))
          well_name .SHUT).1
      else sE).getWell well_name = some w1 ∧
      w1.producer = u3w.producer ∧ w1.injection = u3w.injection ∧
      w1.production = u3w.production ∧
      (if (u3w.allowCrossFlow = false && inj.surfaceInjectionRate.zero) =
          true then
        (updateWellStatus (sE.addNote (noteCrossflowInjector well_name))
          well_name .SHUT).1
      else sE).wellgroupEvents = sE.wellgroupEvents := by
    split
    · obtain ⟨⟨w1, hg, hn, hst, hpr, hinjx, hprodx⟩, _⟩ :=
        shutNoteStep sE well_name (noteCrossflowInjector well_name) u3w
          hgE hn3
      exact ⟨w1, hg, hpr, hinjx, hprodx,
        by rw [wellgroupEvents_updateWellStatus, wellgroupEvents_addNote]⟩
    · exact ⟨u3w, hgE, rfl, rfl, rfl, rfl⟩
  obtain ⟨wF, hgF, hprF, hinjF, hprodF, hwgeF⟩ := hFinal
  refine ⟨_, wF, rfl, hgF, ?_, ?_, ?_, ?_⟩
  · rw [hprF, hu3fields]
  · rw [hprodF, hu3fields]
    dsimp only
    rw [hprodA]
  · rw [hinjF, hu3fields]
    dsimp only
    rw [hinjdef, hinjA]
  · rw [hwgeF]
    exact hmemE

theorem wconhist_switch_helper (vfpprod : List Int) (loc : KeywordLocation)
    (r : WCONHISTRecord) (st : WellStatus) (s0 : SchedState)
    (well_name : String) (w : Well)
    (hw : s0.getWell well_name = some w) (hname : w.name = well_name)
    (hproducer : w.producer = false)
    (hvfp : (if r.vfp_table.defaultApplied then w.production.VFPTableNumber
        else r.vfp_table.value) = 0 ∨
      (if r.vfp_table.defaultApplied then w.production.VFPTableNumber
        else r.vfp_table.value) ∈ vfpprod) :
    ∃ s1 wfin, handleWCONHISTwell vfpprod loc r st s0 well_name = .ok s1 ∧
      s1.getWell well_name = some wfin ∧ wfin.producer = true ∧
      wfin.injection = w.injection.resetBHPLimit ∧
      wfin.production = (w.production.handleWCONHIST r).resetDefaultBHPLimit ∧
      (well_name, ScheduleEvent.WELL_SWITCHED_INJECTOR_PRODUCER) ∈
        s1.wellgroupEvents := by
  obtain ⟨wA, hgA, hnA, hstA, hprA, hacfA, havA, hinjA, hprodA⟩ :=
    updateWellStatus_status_after s0 well_name st w hw hname
  have hprA2 : wA.producer = false := hprA.trans hproducer
  simp only [handleWCONHISTwell]
  rw [hgA]
  dsimp only
  have hvfpA : (if r.vfp_table.defaultApplied then
        wA.production.VFPTableNumber else r.vfp_table.value) = 0 ∨
      (if r.vfp_table.defaultApplied then
        wA.production.VFPTableNumber else r.vfp_table.value) ∈ vfpprod := by
    rw [hprodA]
    exact hvfp
  rw [hprA2]
  rw [if_neg (by rcases hvfpA with h | h <;> simp [h])]
  simp only [Bool.not_false, if_true]
  set properties := (wA.production.handleWCONHIST r).resetDefaultBHPLimit
    with hpropdef
  have hupd : (true || ((wA.updateInjection
        wA.injection.resetBHPLimit).1.updateProduction properties).2 ||
      (((wA.updateInjection
        wA.injection.resetBHPLimit).1.updateProduction
          properties).1.updatePrediction false).2 ||
      ((((wA.updateInjection
        wA.injection.resetBHPLimit).1.updateProduction
          properties).1.updatePrediction false).1).updateHasProduced.2)
        = true := by simp
  rw [hupd]
  simp only [if_true]
  set u3w := ((((wA.updateInjection
      wA.injection.resetBHPLimit).1.updateProduction
        properties).1.updatePrediction false).1).updateHasProduced.1
    with hu3
  have hu3fields : u3w = { wA with
      producer := true
      injection := wA.injection.resetBHPLimit
      production := properties
      predictionMode := false
      hasProduced := true } := by
    rw [hu3, wconhist_chain wA wA.injection.resetBHPLimit properties false
      hprA2, resetBHPLimit_idem]
  have hn3 : u3w.name = well_name := by
    rw [hu3fields]
    exact hnA
  set sW := (updateWellStatus s0 well_name st).1.addWGEvent well_name
    .WELL_SWITCHED_INJECTOR_PRODUCER with hsW
  set sSet := ((sW.addStepEvent .PRODUCTION_UPDATE).addWGEvent well_name
    .PRODUCTION_UPDATE).setWell u3w with hsSet
  have hgSet : sSet.getWell well_name = some u3w := by
    rw [hsSet, getWell_setWell, if_pos hn3.symm, getWell_addWGEvent,
      getWell_addStepEvent, hsW, getWell_addWGEvent, hgA]
    rfl
  have hmemSet : (well_name, ScheduleEvent.WELL_SWITCHED_INJECTOR_PRODUCER) ∈
      sSet.wellgroupEvents := by
    rw [hsSet, wellgroupEvents_setWell, wellgroupEvents_addWGEvent,
      wellgroupEvents_addStepEvent, hsW, wellgroupEvents_addWGEvent]
    exact List.mem_append_left _ (List.mem_append_right _ (by simp))
  have hFinal : ∃ w1,
      (if (u3w.allowCrossFlow = false && properties.OilRate.zero &&
          properties.WaterRate.zero && properties.GasRate.zero) = true then
        (updateWellStatus
          (sSet.addNote (noteCrossflowHistProducer well_name))
          well_name .SHUT).1
      else sSet).getWell well_name = some w1 ∧
      w1.producer = u3w.producer ∧ w1.injection = u3w.injection ∧
      w1.production = u3w.production ∧
      (if (u3w.allowCrossFlow = false && properties.OilRate.zero &&
          properties.WaterRate.zero && properties.GasRate.zero) = true then
        (updateWellStatus
          (sSet.addNote (noteCrossflowHistProducer well_name))
          well_name .SHUT).1
      else sSet).wellgroupEvents = sSet.wellgroupEvents := by
    split
    · obtain ⟨⟨w1, hg, hn, hst, hpr, hinjx, hprodx⟩, _⟩ :=
        shutNoteStep sSet well_name (noteCrossflowHistProducer well_name)
          u3w hgSet hn3
      exact ⟨w1, hg, hpr, hinjx, hprodx,
        by rw [wellgroupEvents_updateWellStatus, wellgroupEvents_addNote]⟩
    · exact ⟨u3w, hgSet, rfl, rfl, rfl, rfl⟩
  obtain ⟨wF, hgF, hprF, hinjF, hprodF, hwgeF⟩ := hFinal
  refine ⟨_, wF, rfl, hgF, ?_, ?_, ?_, ?_⟩
  · rw [hprF, hu3fields]
  · rw [hinjF, hu3fields]
    dsimp only
    rw [hinjA]
  · rw [hprodF, hu3fields]
    dsimp only
    rw [hpropdef, hprodA]
  · rw [hwgeF]
    exact hmemSet

theorem wconprod_switch_helper (vfpprod : List Int) (loc : KeywordLocation)
    (r : WCONPRODRecord) (st : WellStatus) (s0 : SchedState)
    (well_name : String) (w : Well)
    (hw : s0.getWell well_name = some w) (hname : w.name = well_name)
    (hproducer : w.producer = false)
    (hvfp : (if r.vfp_table.defaultApplied then w.production.VFPTableNumber
        else r.vfp_table.value) = 0 ∨
      (if r.vfp_table.defaultApplied then w.production.VFPTableNumber
        else r.vfp_table.value) ∈ vfpprod) :
    ∃ s1 wfin, handleWCONPRODwell vfpprod loc r st s0 well_name = .ok s1 ∧
      s1.getWell well_name = some wfin ∧ wfin.producer = true ∧
      wfin.injection = w.injection.resetBHPLimit ∧
      wfin.production =
        ((if w.availableForGroupControl then
            (w.production.clearControls).addProductionControl .GRUP
          else w.production.clearControls).handleWCONPROD
          r).resetDefaultBHPLimit ∧
      (well_name, ScheduleEvent.WELL_SWITCHED_INJECTOR_PRODUCER) ∈
        s1.wellgroupEvents := by
  obtain ⟨wA, hgA, hnA, hstA, hprA, hacfA, havA, hinjA, hprodA⟩ :=
    updateWellStatus_status_after s0 well_name st w hw hname
  have hprA2 : wA.producer = false := hprA.trans hproducer
  simp only [handleWCONPRODwell]
  rw [hgA]
  dsimp only
  have hvfpA : (if r.vfp_table.defaultApplied then
        wA.production.VFPTableNumber else r.vfp_table.value) = 0 ∨
      (if r.vfp_table.defaultApplied then
        wA.production.VFPTableNumber else r.vfp_table.value) ∈ vfpprod := by
    rw [hprodA]
    exact hvfp
  rw [hprA2]
  rw [if_neg (by rcases hvfpA with h | h <;> simp [h])]
  simp only [Bool.not_false, if_true]
  set properties := ((if wA.availableForGroupControl then
      (wA.production.clearControls).addProductionControl .GRUP
    else wA.production.clearControls).handleWCONPROD r).resetDefaultBHPLimit
    with hpropdef
  have hupd : ((updateWellStatus s0 well_name st).2 || true ||
      (wA.updateProduction properties).2 ||
      ((wA.updateProduction properties).1.updatePrediction true).2 ||
      (((wA.updateProduction
        properties).1.updatePrediction true).1).updateHasProduced.2)
        = true := by simp
  rw [hupd]
  simp only [if_true]
  set u3w := (((wA.updateProduction
      properties).1.updatePrediction true).1).updateHasProduced.1 with hu3
  have hu3fields : u3w = { wA with
      producer := true
      injection := wA.injection.resetBHPLimit
      production := properties
      predictionMode := true
      hasProduced := true } := by
    rw [hu3, wconprod_chain wA properties true hprA2]
  have hn3 : u3w.name = well_name := by
    rw [hu3fields]
    exact hnA
  set sW := (updateWellStatus s0 well_name st).1.addWGEvent well_name
    .WELL_SWITCHED_INJECTOR_PRODUCER with hsW
  have hmemW : (well_name, ScheduleEvent.WELL_SWITCHED_INJECTOR_PRODUCER) ∈
      sW.wellgroupEvents := by
    rw [hsW, wellgroupEvents_addWGEvent]
    exact List.mem_append_right _ (by simp)
  set sReq := if u3w.status = WellStatus.OPEN then
      sW.addWGEvent well_name .REQUEST_OPEN_WELL
    else sW with hsReq
  have hgReq : sReq.getWell well_name = sW.getWell well_name := by
    rw [hsReq]
    split
    · rw [getWell_addWGEvent]
    · rfl
  have hmemReq : (well_name, ScheduleEvent.WELL_SWITCHED_INJECTOR_PRODUCER) ∈
      sReq.wellgroupEvents := by
    rw [hsReq]
    split
    · rw [wellgroupEvents_addWGEvent]
      exact List.mem_append_left _ hmemW
    · exact hmemW
  set sSet := ((sReq.addStepEvent .PRODUCTION_UPDATE).addWGEvent well_name
    .PRODUCTION_UPDATE).setWell u3w with hsSet
  have hgSet : sSet.getWell well_name = some u3w := by
    rw [hsSet, getWell_setWell, if_pos hn3.symm, getWell_addWGEvent,
      getWell_addStepEvent, hgReq, hsW, getWell_addWGEvent, hgA]
    rfl
  have hmemSet : (well_name, ScheduleEvent.WELL_SWITCHED_INJECTOR_PRODUCER) ∈
      sSet.wellgroupEvents := by
    rw [hsSet, wellgroupEvents_setWell, wellgroupEvents_addWGEvent,
      wellgroupEvents_addStepEvent]
    exact List.mem_append_left _ hmemReq
  refine ⟨_, u3w, rfl, ?_, ?_, ?_, ?_, ?_⟩
  · rw [getWell_affectedWell, getWell_updateUDQActiveProd]
    exact hgSet
  · rw [hu3fields]
  · rw [hu3fields]
    dsimp only
    rw [hinjA]
  · rw [hu3fields]
    dsimp only
    rw [hpropdef, hprodA, havA]
  · rw [wellgroupEvents_affectedWell, wellgroupEvents_updateUDQActiveProd]
    exact hmemSet

/-- C5: a well that switches role while WCONHIST, WCONPROD, WCONINJE or
WCONINJH is processed has its BHP-limit-related defaults reset in both
directions of the switch (production defaults on switching to producer or
injector, injection BHP limit on switching to producer) and a
`WELL_SWITCHED_INJECTOR_PRODUCER` event recorded in the step's per-entity
event set.  For WCONHIST and WCONPROD the only precondition beyond the
switch itself is that the record passes the keyword's own VFP-table
check: the effective table number is 0 or names a defined production VFP
table (otherwise the handler throws before any update). -/
theorem C5_role_switch_reset_and_event :
    (∀ (vfpprod : List Int) (loc : KeywordLocation) (r : WCONHISTRecord)
        (st : WellStatus) (s0 : SchedState) (well_name : String) (w : Well),
      s0.getWell well_name = some w → w.name = well_name →
      w.producer = false →
      ((if r.vfp_table.defaultApplied then w.production.VFPTableNumber
          else r.vfp_table.value) = 0 ∨
        (if r.vfp_table.defaultApplied then w.production.VFPTableNumber
          else r.vfp_table.value) ∈ vfpprod) →
      ∃ s1 wfin, handleWCONHISTwell vfpprod loc r st s0 well_name =
          .ok s1 ∧
        s1.getWell well_name = some wfin ∧ wfin.producer = true ∧
        wfin.injection = w.injection.resetBHPLimit ∧
        wfin.production =
          (w.production.handleWCONHIST r).resetDefaultBHPLimit ∧
        (well_name, ScheduleEvent.WELL_SWITCHED_INJECTOR_PRODUCER) ∈
          s1.wellgroupEvents) ∧
    (∀ (vfpprod : List Int) (loc : KeywordLocation) (r : WCONPRODRecord)
        (st : WellStatus) (s0 : SchedState) (well_name : String) (w : Well),
      s0.getWell well_name = some w → w.name = well_name →
      w.producer = false →
      ((if r.vfp_table.defaultApplied then w.production.VFPTableNumber
          else r.vfp_table.value) = 0 ∨
        (if r.vfp_table.defaultApplied then w.production.VFPTableNumber
          else r.vfp_table.value) ∈ vfpprod) →
      ∃ s1 wfin, handleWCONPRODwell vfpprod loc r st s0 well_name =
          .ok s1 ∧
        s1.getWell well_name = some wfin ∧ wfin.producer = true ∧
        wfin.injection = w.injection.resetBHPLimit ∧
        wfin.production =
          ((if w.availableForGroupControl then
              (w.production.clearControls).addProductionControl .GRUP
            else w.production.clearControls).handleWCONPROD
            r).resetDefaultBHPLimit ∧
        (well_name, ScheduleEvent.WELL_SWITCHED_INJECTOR_PRODUCER) ∈
          s1.wellgroupEvents) ∧
    (∀ (r : WCONINJERecord) (st : WellStatus) (s0 : SchedState)
        (well_name : String) (w : Well),
      s0.getWell well_name = some w → w.name = well_name →
      w.producer = true →
      ∃ s1 wfin, handleWCONINJEwell r st s0 well_name = .ok s1 ∧
        s1.getWell well_name = some wfin ∧ wfin.producer = false ∧
        wfin.production = w.production.resetDefaultBHPLimit ∧
        wfin.injection =
          w.injection.handleWCONINJE r w.availableForGroupControl ∧
        (well_name, ScheduleEvent.WELL_SWITCHED_INJECTOR_PRODUCER) ∈
          s1.wellgroupEvents) ∧
    (∀ (r : WCONINJHRecord) (st : WellStatus) (s0 : SchedState)
        (well_name : String) (w : Well),
      s0.getWell well_name = some w → w.name = well_name →
      w.producer = true →
      ∃ s1 wfin, handleWCONINJHwell r st s0 well_name = .ok s1 ∧
        s1.getWell well_name = some wfin ∧ wfin.producer = false ∧
        wfin.production = w.production.resetDefaultBHPLimit ∧
        wfin.injection = w.injection.handleWCONINJH r ∧
        (well_name, ScheduleEvent.WELL_SWITCHED_INJECTOR_PRODUCER) ∈
          s1.wellgroupEvents) :=
  ⟨fun vfpprod loc r st s0 well_name w hw hname hp hv =>
      wconhist_switch_helper vfpprod loc r st s0 well_name w hw hname hp hv,
   fun vfpprod loc r st s0 well_name w hw hname hp hv =>
      wconprod_switch_helper vfpprod loc r st s0 well_name w hw hname hp hv,
   fun r st s0 well_name w hw hname hp =>
      wconinje_switch_helper r st s0 well_name w hw hname hp,
   fun r st s0 well_name w hw hname hp =>
      wconinjh_switch_helper r st s0 well_name w hw hname hp⟩

theorem C5_role_switch_reset_and_event_witness :
    (∃ s1 wfin, handleWCONHISTwell [] exampleLoc exampleWCONHISTRecord
        .OPEN exampleInjectorState "W1" = .ok s1 ∧
      s1.getWell "W1" = some wfin ∧ wfin.producer = true ∧
      wfin.injection = exampleInjectorWell.injection.resetBHPLimit ∧
      wfin.production = (exampleInjectorWell.production.handleWCONHIST
        exampleWCONHISTRecord).resetDefaultBHPLimit ∧
      ("W1", ScheduleEvent.WELL_SWITCHED_INJECTOR_PRODUCER) ∈
        s1.wellgroupEvents) ∧
    (∃ s1 wfin, handleWCONPRODwell [7] exampleLoc exampleWCONPRODRecord
        .OPEN exampleInjectorState "W1" = .ok s1 ∧
      s1.getWell "W1" = some wfin ∧ wfin.producer = true ∧
      wfin.injection = exampleInjectorWell.injection.resetBHPLimit ∧
      wfin.production =
        ((if exampleInjectorWell.availableForGroupControl then
            (exampleInjectorWell.production.clearControls).addProductionControl
              .GRUP
          else exampleInjectorWell.production.clearControls).handleWCONPROD
          exampleWCONPRODRecord).resetDefaultBHPLimit ∧
      ("W1", ScheduleEvent.WELL_SWITCHED_INJECTOR_PRODUCER) ∈
        s1.wellgroupEvents) ∧
    (∃ s1 wfin, handleWCONINJEwell exampleWCONINJERecord .OPEN
        exampleSchedState "W1" = .ok s1 ∧
      s1.getWell "W1" = some wfin ∧ wfin.producer = false ∧
      wfin.production = exampleWell.production.resetDefaultBHPLimit ∧
      wfin.injection = exampleWell.injection.handleWCONINJE
        exampleWCONINJERecord exampleWell.availableForGroupControl ∧
      ("W1", ScheduleEvent.WELL_SWITCHED_INJECTOR_PRODUCER) ∈
        s1.wellgroupEvents) ∧
    (∃ s1 wfin, handleWCONINJHwell exampleWCONINJHRecord .OPEN
        exampleSchedState "W1" = .ok s1 ∧
      s1.getWell "W1" = some wfin ∧ wfin.producer = false ∧
      wfin.production = exampleWell.production.resetDefaultBHPLimit ∧
      wfin.injection = exampleWell.injection.handleWCONINJH
        exampleWCONINJHRecord ∧
      ("W1", ScheduleEvent.WELL_SWITCHED_INJECTOR_PRODUCER) ∈
        s1.wellgroupEvents) :=
  ⟨C5_role_switch_reset_and_event.1 [] exampleLoc exampleWCONHISTRecord
      .OPEN exampleInjectorState "W1" exampleInjectorWell (by decide)
      (by decide) (by decide) (by decide),
   C5_role_switch_reset_and_event.2.1 [7] exampleLoc exampleWCONPRODRecord
      .OPEN exampleInjectorState "W1" exampleInjectorWell (by decide)
      (by decide) (by decide) (by decide),
   C5_role_switch_reset_and_event.2.2.1 exampleWCONINJERecord .OPEN
      exampleSchedState "W1" exampleWell (by decide) (by decide) (by decide),
   C5_role_switch_reset_and_event.2.2.2 exampleWCONINJHRecord .OPEN
      exampleSchedState "W1" exampleWell (by decide) (by decide)
      (by decide)⟩

/-- C8 as stated is false on the code: processing a COMPDAT keyword whose
record leaves the well's connections semantically unchanged still appends
a `COMPLETION_CHANGE` event for the well to the per-entity event set (and
one to the per-step set) — the `addEvent` calls in `handleCOMPDAT` are
outside the change-gated block — even though the stored well state is
unchanged. -/
theorem C8_compdat_event_on_noop_counterexample :
    handleCOMPDAT exampleResolver [exampleCOMPDATRecord] exampleSchedState =
      .ok { exampleSchedState with
        stepEvents := [ScheduleEvent.COMPLETION_CHANGE]
        wellgroupEvents := [("W1", ScheduleEvent.COMPLETION_CHANGE)] } ∧
    ("W1", ScheduleEvent.COMPLETION_CHANGE) ∉
      exampleSchedState.wellgroupEvents := by
  constructor
  · rfl
  · decide

/-- C8 amended: a handler that gates both its commit and its event
emission on `update(...)` — `handleWEFAC` — leaves the state completely
unchanged when the resulting property block equals the existing one; but
`handleCOMPDAT` appends the per-entity `COMPLETION_CHANGE` event for
every resolved well unconditionally, even when loading the record leaves
the well's connections unchanged (the stored wells are unchanged). -/
theorem C8_noop_update_events (eff : Rat) (s : SchedState)
    (well_name : String) (w : Well) (r : COMPDATRecord)
    (acc : SchedState × List String) (name : String) (wc : Well) :
    (s.getWell well_name = some w → w.efficiencyFactor = eff →
      handleWEFACwell eff s well_name = .ok s) ∧
    (acc.1.getWell name = some wc →
      loadCOMPDAT r wc.connections = wc.connections →
      handleCOMPDATwell r acc name =
        .ok (acc.1.addWGEvent name .COMPLETION_CHANGE, acc.2)) := by
  constructor
  · intro hw heff
    simp only [handleWEFACwell]
    rw [hw]
    simp [Well.updateEfficiencyFactor, heff]
  · intro hw hload
    simp only [handleCOMPDATwell]
    rw [hw]
    dsimp only
    rw [hload]
    simp [Well.updateConnections]

theorem C8_noop_update_events_witness :
    handleWEFACwell 1 exampleSchedState "W1" = .ok exampleSchedState ∧
    handleCOMPDATwell exampleCOMPDATRecord
        (exampleSchedState, ([] : List String)) "W1" =
      .ok (exampleSchedState.addWGEvent "W1" .COMPLETION_CHANGE,
        ([] : List String)) :=
  ⟨(C8_noop_update_events 1 exampleSchedState "W1" exampleWell
      exampleCOMPDATRecord (exampleSchedState, []) "W1" exampleWell).1
      (by decide) (by decide),
   (C8_noop_update_events 1 exampleSchedState "W1" exampleWell
      exampleCOMPDATRecord (exampleSchedState, []) "W1" exampleWell).2
      (by decide) (by decide)⟩

theorem C9_wlist_action_substring_witness :
    (handleWLISTRecord exampleResolver ⟨[("*L", ⟨[]⟩)]⟩ ⟨"*L", "XYZ", ["W1"]⟩ =
      .error (.logicError ("The action:" ++ "XYZ" ++ " is not recognized."))) ∧
    (handleWLISTRecord exampleResolver ⟨[("*L", ⟨[]⟩)]⟩ ⟨"*L", "EW", ["W1"]⟩ =
      handleWLISTRecord exampleResolver ⟨[("*L", ⟨[]⟩)]⟩ ⟨"*L", "ADD", ["W1"]⟩) :=
  ⟨(C9_wlist_action_substring exampleResolver ⟨[("*L", ⟨[]⟩)]⟩ "*L" "XYZ"
      ["W1"]).1 (by decide),
   (C9_wlist_action_substring exampleResolver ⟨[("*L", ⟨[]⟩)]⟩ "*L" "EW"
      ["W1"]).2 (by decide) (by decide) (by decide) (by decide)⟩

end OpmSpec
